import Mathlib

/-!
Verification of the shopping-list-server core services against their
natural-language specification.

The Go services (internal/auth, internal/invitations, internal/lists) are
shallowly embedded: each GORM-backed table becomes a list of rows inside a
`DB` structure, `First`/`Where` queries become `List.find?` with the same
boolean predicate, `Delete` becomes `List.filter`, `Save` (write by primary
key) becomes `List.map` replacing the row with the matching key, and
`Create` appends a row after checking the unique-key constraints the schema
declares.  `time.Now()` is passed in as a natural-number timestamp, and the
random values produced by `crypto/rand` (magic-link codes, invitation code
bytes, UUIDs) are passed in as parameters.
-/

namespace SLS

/-- Row of the `users` table (internal/models: `User`). -/
structure User where
  id : String
  email : String
  invitedBy : Option String
  joinedAt : Nat
  createdAt : Nat

deriving DecidableEq, Repr

/-- Row of the `magic_links` table (internal/models: `MagicLink`);
primary key is `code`. -/
structure MagicLink where
  code : String
  email : String
  expiresAt : Nat
  used : Bool

deriving DecidableEq, Repr

/-- Row of the `invitations` table (internal/models: `Invitation`);
`code` carries a unique constraint. -/
structure Invitation where
  id : String
  code : String
  email : String
  invType : String
  listID : Option String
  invitedBy : String
  expiresAt : Nat
  used : Bool
  createdAt : Nat

deriving DecidableEq, Repr

/-- Row of the `shopping_lists` table (internal/models: `ShoppingList`). -/
structure ShoppingList where
  id : String
  name : String
  ownerID : String
  createdAt : Nat
  updatedAt : Nat

deriving DecidableEq, Repr

/-- Row of the `list_members` table (internal/models: `ListMember`);
composite primary key is (listID, userID). -/
structure ListMember where
  listID : String
  userID : String
  role : String
  joinedAt : Nat

deriving DecidableEq, Repr

/-- Row of the `shopping_items` table (internal/models: `ShoppingItem`). -/
structure ShoppingItem where
  id : String
  listID : String
  name : String
  completed : Bool
  tags : String
  createdAt : Nat

deriving DecidableEq, Repr

deriving instance DecidableEq for Except

/-- The backing store: one list of rows per table. -/
structure DB where
  users : List User
  magicLinks : List MagicLink
  invitations : List Invitation
  lists : List ShoppingList
  listMembers : List ListMember
  items : List ShoppingItem

deriving DecidableEq, Repr

/-- Errors surfaced by the authentication service. -/
inductive AuthErr where
  /-- no row matched `code = ? AND email = ? AND used = false AND expires_at > ?` -/
  | invalidOrExpiredCode
  /-- `invitation required for new users` -/
  | invitationRequired
  /-- `db.Create` failed on a unique-key constraint -/
  | createConflict

deriving DecidableEq, Repr

/-- ASCII whitespace as recognised by Go's `strings.TrimSpace` on the
ASCII ids and names this service handles. -/
def isSpaceChar (c : Char) : Bool :=
  c == ' ' || c == '\t' || c == '\n' || c == '\r'

/-- `strings.TrimSpace`: strip leading and trailing whitespace. -/
def trimSpace (s : String) : String :=
  ⟨((s.data.dropWhile isSpaceChar).reverse.dropWhile isSpaceChar).reverse⟩

/-- `strings.ToUpper` for the ASCII invitation codes. -/
def toUpperStr (s : String) : String :=
  ⟨s.data.map Char.toUpper⟩

/-- The `WHERE` clause of `VerifyMagicLink(WithInvitation)`:
`code = ? AND email = ? AND used = false AND expires_at > ?` (auth.go). -/
def findMagicLink (db : DB) (code email : String) (now : Nat) : Option MagicLink :=
  db.magicLinks.find? fun ml =>
    ml.code == code && ml.email == email && ml.used == false && decide (now < ml.expiresAt)

/-- `magicLink.Used = true; s.DB.Save(&magicLink)` — write-back by the
primary key `code`. -/
def markMagicLinkUsed (db : DB) (code : String) : DB :=
  { db with magicLinks :=
      db.magicLinks.map fun ml => if ml.code == code then { ml with used := true } else ml }

/-- `db.Create(&user)` with the schema's unique keys: `id` is the primary
key and `email` carries a unique constraint. -/
def createUserRow (db : DB) (u : User) : Option DB :=
  if db.users.any fun v => v.id == u.id || v.email == u.email then none
  else some { db with users := db.users ++ [u] }

/-- The pending-invitation lookup used for brand-new users in
`VerifyMagicLinkWithInvitation`:
`email = ? AND used = false AND expires_at > ?` (any kind). -/
def findPendingInvitation (db : DB) (email : String) (now : Nat) : Option Invitation :=
  db.invitations.find? fun inv =>
    inv.email == email && inv.used == false && decide (now < inv.expiresAt)

/-- The pending list-invitation lookup used for existing users:
`email = ? AND used = false AND expires_at > ? AND type = 'list'`. -/
def findPendingListInvitation (db : DB) (email : String) (now : Nat) : Option Invitation :=
  db.invitations.find? fun inv =>
    inv.email == email && inv.used == false && decide (now < inv.expiresAt) &&
      inv.invType == "list"

/-- `auth.Service.VerifyMagicLinkWithInvitation` (auth.go).  `newUserID`
stands for the `uuid.New().String()` drawn when a user is created.  The
returned `DB` reflects every write the Go function performed before it
returned, including writes made on paths that end in an error. -/
def verifyMagicLinkWithInvitation (db : DB) (now : Nat) (email code newUserID : String) :
    DB × Except AuthErr (User × Option Invitation) :=
  match findMagicLink db code email now with
  | none => (db, .error .invalidOrExpiredCode)
  | some ml =>
    let db1 := markMagicLinkUsed db ml.code
    match db1.users.find? fun u => u.email == email with
    | some user =>
      match findPendingListInvitation db1 email now with
      | some inv => (db1, .ok (user, some inv))
      | none => (db1, .ok (user, none))
    | none =>
      match findPendingInvitation db1 email now with
      | none => (db1, .error .invitationRequired)
      | some inv =>
        let user : User :=
          { id := newUserID, email := email, invitedBy := some inv.invitedBy,
            joinedAt := now, createdAt := now }
        match createUserRow db1 user with
        | none => (db1, .error .createConflict)
        | some db2 => (db2, .ok (user, some inv))

/-- `auth.Service.CreateMagicLink` (auth.go): delete every magic link for
the email, then create the new row with a 15-minute expiry.  `code` stands
for the value drawn by `GenerateCode()`.  The deletion is kept even when
the create fails (the Go code does not roll it back). -/
def createMagicLink (db : DB) (now : Nat) (email code : String) :
    DB × Except AuthErr String :=
  let db1 := { db with magicLinks := db.magicLinks.filter fun ml => !(ml.email == email) }
  if db1.magicLinks.any fun ml => ml.code == code then (db1, .error .createConflict)
  else
    ({ db1 with magicLinks :=
        db1.magicLinks ++ [{ code := code, email := email, expiresAt := now + 15 * 60,
                             used := false }] },
     .ok code)

/-- Errors surfaced by the invitations service. -/
inductive InvErr where
  /-- `invalid invitation type` -/
  | invalidType
  /-- `list_id required for list invitations` -/
  | listIDRequired
  /-- `user is not the owner of this list` -/
  | notListOwner
  /-- `user is already a member of this list` -/
  | alreadyMember
  /-- `user already exists` -/
  | userAlreadyExists
  /-- `user is already invited` -/
  | alreadyInvited
  /-- `db.Create` failed on a unique-key constraint -/
  | createConflict
  /-- `invalid or expired invitation` -/
  | invalidOrExpiredInvitation
  /-- `invitation not found or already used` -/
  | notFoundOrUsed

deriving DecidableEq, Repr

/-- One byte rendered by Go's `%X` verb: two uppercase hexadecimal digits. -/
def hexDigitChar (d : Nat) : Char :=
  if d = 0 then '0' else if d = 1 then '1' else if d = 2 then '2'
  else if d = 3 then '3' else if d = 4 then '4' else if d = 5 then '5'
  else if d = 6 then '6' else if d = 7 then '7' else if d = 8 then '8'
  else if d = 9 then '9' else if d = 10 then 'A' else if d = 11 then 'B'
  else if d = 12 then 'C' else if d = 13 then 'D' else if d = 14 then 'E'
  else 'F'

/-- `%X` of a single byte: high nibble then low nibble, uppercase. -/
def byteHex (b : Nat) : List Char :=
  [hexDigitChar (b / 16), hexDigitChar (b % 16)]

/-- `invitations.GenerateInvitationCode`: `fmt.Sprintf("%X", bytes)` over the
4 bytes drawn from `crypto/rand` (the non-fallback path). -/
def generateInvitationCode (b0 b1 b2 b3 : Fin 256) : String :=
  ⟨byteHex b0.val ++ byteHex b1.val ++ byteHex b2.val ++ byteHex b3.val⟩

/-- The list-kind precondition block of `CreateInvitation` (invitations.go):
requires a non-nil `listID` and an owner-role membership row for the
inviter.  Returns the error it would raise, if any. -/
def invListCheck (db : DB) (inviterID invType : String) (listID : Option String) :
    Option InvErr :=
  if invType == "list" then
    match listID with
    | none => some .listIDRequired
    | some lid =>
      if (db.listMembers.find? fun m =>
          m.listID == lid && m.userID == inviterID && m.role == "owner").isSome then none
      else some .notListOwner
  else none

/-- The registered-user check of `CreateInvitation`: an existing user blocks
server invitations outright and blocks list invitations when already a
member of the list.  (`listID.getD ""` stands for Go's `*listID`, which on
the list-kind path is guaranteed non-nil by `invListCheck`.) -/
def invUserCheck (db : DB) (email invType : String) (listID : Option String) :
    Option InvErr :=
  match db.users.find? fun u => u.email == email with
  | some user =>
    if invType == "list" then
      if (db.listMembers.find? fun m =>
          m.listID == listID.getD "" && m.userID == user.id).isSome then
        some .alreadyMember
      else none
    else some .userAlreadyExists
  | none => none

/-- `invitations.Service.CreateInvitation` (invitations.go).  `newID` stands
for `uuid.New().String()` and `b0..b3` for the random bytes given to
`GenerateInvitationCode`.  Note the duplicate-invitation check filters on
`email = ? AND used = false AND type = ?` with no expiry condition, and the
delete of prior unused invitations happens after that check. -/
def createInvitation (db : DB) (now : Nat) (inviterID email invType : String)
    (listID : Option String) (newID : String) (b0 b1 b2 b3 : Fin 256) :
    DB × Except InvErr Invitation :=
  if !(invType == "server") && !(invType == "list") then (db, .error .invalidType)
  else match invListCheck db inviterID invType listID with
  | some e => (db, .error e)
  | none =>
    match invUserCheck db email invType listID with
    | some e => (db, .error e)
    | none =>
      if (db.invitations.find? fun i =>
          i.email == email && i.used == false && i.invType == invType).isSome then
        (db, .error .alreadyInvited)
      else
        let db1 := { db with invitations :=
          db.invitations.filter fun i => !(i.email == email && i.used == false) }
        let inv : Invitation :=
          { id := newID, code := generateInvitationCode b0 b1 b2 b3, email := email,
            invType := invType, listID := listID, invitedBy := inviterID,
            expiresAt := now + 7 * 24 * 60 * 60, used := false, createdAt := now }
        if db1.invitations.any fun i => i.id == inv.id || i.code == inv.code then
          (db1, .error .createConflict)
        else ({ db1 with invitations := db1.invitations ++ [inv] }, .ok inv)

/-- `invitations.Service.AcceptInvitation` (invitations.go): match on
`email = ? AND code = ? AND used = false AND expires_at > ?` with the given
code uppercased, then mark the row used (`Save` by primary key `id`). -/
def acceptInvitation (db : DB) (now : Nat) (email code : String) :
    DB × Except InvErr Invitation :=
  match db.invitations.find? fun inv =>
      inv.email == email && inv.code == toUpperStr code && inv.used == false &&
        decide (now < inv.expiresAt) with
  | none => (db, .error .invalidOrExpiredInvitation)
  | some inv =>
    ({ db with invitations :=
        db.invitations.map fun j => if j.id == inv.id then { j with used := true } else j },
     .ok { inv with used := true })

/-- `invitations.Service.RevokeInvitation`: delete where
`id = ? AND invited_by = ? AND used = false`; error when zero rows were
affected. -/
def revokeInvitation (db : DB) (invitationID userID : String) :
    DB × Except InvErr Unit :=
  let remaining := db.invitations.filter fun i =>
    !(i.id == invitationID && i.invitedBy == userID && i.used == false)
  if remaining.length == db.invitations.length then (db, .error .notFoundOrUsed)
  else ({ db with invitations := remaining }, .ok ())

/-- Errors surfaced by the lists service. -/
inductive ListErr where
  /-- `list ID cannot be empty` -/
  | listIDEmpty
  /-- `user ID cannot be empty` -/
  | userIDEmpty
  /-- `new member ID cannot be empty` / `member ID cannot be empty` -/
  | memberIDEmpty
  /-- `list name cannot be empty` -/
  | nameEmpty
  /-- `user not found` -/
  | userNotFound
  /-- `list not found` -/
  | listNotFound
  /-- `only list owners can ...` -/
  | notOwner
  /-- `access denied` -/
  | accessDenied
  /-- `user is already a member of this list` -/
  | alreadyMember
  /-- `cannot remove the last owner from the list` -/
  | lastOwner
  /-- `member not found` -/
  | memberNotFound
  /-- `db.Create` failed on a unique-key constraint -/
  | createConflict

deriving DecidableEq, Repr

/-- `lists.Service.IsListOwner`: `list_id = ? AND user_id = ? AND role = 'owner'`. -/
def isListOwner (db : DB) (listID userID : String) : Bool :=
  (db.listMembers.find? fun m =>
    m.listID == listID && m.userID == userID && m.role == "owner").isSome

/-- `lists.Service.HasListAccess`: `list_id = ? AND user_id = ?`. -/
def hasListAccess (db : DB) (listID userID : String) : Bool :=
  (db.listMembers.find? fun m => m.listID == listID && m.userID == userID).isSome

/-- `lists.Service.CreateList` (lists.go): validate, check the user exists,
create the list row, then create the creator's owner-role membership row.
`newListID` stands for `uuid.New().String()`.  As in the Go code, a failure
of the second create leaves the list row behind. -/
def createList (db : DB) (now : Nat) (userID name newListID : String) :
    DB × Except ListErr ShoppingList :=
  if trimSpace userID == "" then (db, .error .userIDEmpty)
  else if trimSpace name == "" then (db, .error .nameEmpty)
  else match db.users.find? fun u => u.id == userID with
  | none => (db, .error .userNotFound)
  | some _ =>
    if db.lists.any fun l => l.id == newListID then (db, .error .createConflict)
    else
      let list : ShoppingList :=
        { id := newListID, name := trimSpace name, ownerID := userID,
          createdAt := now, updatedAt := now }
      let db1 := { db with lists := db.lists ++ [list] }
      if db1.listMembers.any fun m => m.listID == newListID && m.userID == userID then
        (db1, .error .createConflict)
      else
        ({ db1 with listMembers := db1.listMembers ++
            [{ listID := newListID, userID := userID, role := "owner", joinedAt := now }] },
         .ok list)

/-- `lists.Service.UpdateList`: owner-only rename; `Save` writes back by the
primary key `id`. -/
def updateList (db : DB) (now : Nat) (listID userID name : String) :
    DB × Except ListErr ShoppingList :=
  if trimSpace listID == "" then (db, .error .listIDEmpty)
  else if trimSpace userID == "" then (db, .error .userIDEmpty)
  else if trimSpace name == "" then (db, .error .nameEmpty)
  else if !isListOwner db listID userID then (db, .error .notOwner)
  else match db.lists.find? fun l => l.id == listID with
  | none => (db, .error .listNotFound)
  | some l =>
    let l2 := { l with name := trimSpace name, updatedAt := now }
    ({ db with lists := db.lists.map fun x => if x.id == l.id then l2 else x }, .ok l2)

/-- `lists.Service.DeleteList`: owner-only; deletes the membership rows, the
item rows, then the list itself, reporting `list not found` when the final
delete affected zero rows (the first two deletes are not rolled back). -/
def deleteList (db : DB) (listID userID : String) : DB × Except ListErr Unit :=
  if trimSpace listID == "" then (db, .error .listIDEmpty)
  else if trimSpace userID == "" then (db, .error .userIDEmpty)
  else if !isListOwner db listID userID then (db, .error .notOwner)
  else
    let db1 := { db with
      listMembers := db.listMembers.filter fun m => !(m.listID == listID),
      items := db.items.filter fun it => !(it.listID == listID) }
    let remaining := db1.lists.filter fun l => !(l.id == listID)
    if remaining.length == db1.lists.length then (db1, .error .listNotFound)
    else ({ db1 with lists := remaining }, .ok ())

/-- `lists.Service.AddMemberToList` (lists.go): owner-only; rejects an
existing membership row, then inserts a row with role `member`. -/
def addMemberToList (db : DB) (now : Nat) (listID userID newMemberID : String) :
    DB × Except ListErr Unit :=
  if trimSpace listID == "" then (db, .error .listIDEmpty)
  else if trimSpace userID == "" then (db, .error .userIDEmpty)
  else if trimSpace newMemberID == "" then (db, .error .memberIDEmpty)
  else if !isListOwner db listID userID then (db, .error .notOwner)
  else if (db.listMembers.find? fun m =>
      m.listID == listID && m.userID == newMemberID).isSome then
    (db, .error .alreadyMember)
  else
    ({ db with listMembers := db.listMembers ++
        [{ listID := listID, userID := newMemberID, role := "member", joinedAt := now }] },
     .ok ())

/-- The owner-role rows of a list, as counted by `RemoveMemberFromList`:
`list_id = ? AND role = 'owner'`. -/
def ownerRows (db : DB) (listID : String) : List ListMember :=
  db.listMembers.filter fun m => m.listID == listID && m.role == "owner"

/-- `lists.Service.RemoveMemberFromList` (lists.go): permitted for the owner
or for self-removal; an owner removing themselves is rejected when the
owner-role member count of the list is at most 1; otherwise delete the
`(list_id, user_id)` rows, reporting `member not found` on zero rows. -/
def removeMemberFromList (db : DB) (listID userID memberID : String) :
    DB × Except ListErr Unit :=
  if trimSpace listID == "" then (db, .error .listIDEmpty)
  else if trimSpace userID == "" then (db, .error .userIDEmpty)
  else if trimSpace memberID == "" then (db, .error .memberIDEmpty)
  else if !isListOwner db listID userID && !(userID == memberID) then
    (db, .error .accessDenied)
  else if userID == memberID && isListOwner db listID userID &&
      decide ((ownerRows db listID).length ≤ 1) then
    (db, .error .lastOwner)
  else
    let remaining := db.listMembers.filter fun m =>
      !(m.listID == listID && m.userID == memberID)
    if remaining.length == db.listMembers.length then (db, .error .memberNotFound)
    else ({ db with listMembers := remaining }, .ok ())

/-- `lists.Service.CreateDefaultListForUser`: `CreateList(userID, "My Shopping List")`. -/
def createDefaultListForUser (db : DB) (now : Nat) (userID newListID : String) :
    DB × Except ListErr ShoppingList :=
  createList db now userID "My Shopping List" newListID

/-- Big-endian decimal digit sequence of a natural number, as printed by
Go's `%d` verb (0 prints as a single digit). -/
def decDigits (n : Nat) : List Nat :=
  if _h : n < 10 then [n] else decDigits (n / 10) ++ [n % 10]
decreasing_by exact Nat.div_lt_self (by omega) (by norm_num)

/-- The zero left-padding applied by the `06` width of `%06d`. -/
def pad6 (l : List Nat) : List Nat :=
  List.replicate (6 - l.length) 0 ++ l

/-- Go's `fmt.Sprintf("%06d", n)` for a non-negative integer: the decimal
digits, left-padded with zeros to a minimum width of 6. -/
def fmt06 (n : Nat) : String :=
  ⟨(pad6 (decDigits n)).map hexDigitChar⟩

/-- `auth.GenerateCode` (auth.go), non-fallback path: format the 24-bit
value `b0<<16 | b1<<8 | b2` built from the 3 random bytes with `%06d` and
keep the first 6 characters. -/
def generateCode (b0 b1 b2 : Fin 256) : String :=
  ⟨(fmt06 (b0.val * 65536 + b1.val * 256 + b2.val)).data.take 6⟩

/-- Number of byte triples that `GenerateCode` maps to a given code string. -/
def codePreimageCount (c : String) : Nat :=
  (Finset.univ.filter fun b : Fin 256 × Fin 256 × Fin 256 =>
    generateCode b.1 b.2.1 b.2.2 = c).card

/-- Value of a big-endian digit list. -/
def unDigits (l : List Nat) : Nat :=
  l.foldl (fun a d => a * 10 + d) 0

/-- The 6-digit value whose padded decimal expansion `GenerateCode` returns
for a 24-bit input `v`: `v` itself below `10^6`, else the leading 6 of its
7 or 8 decimal digits. -/
def gIdx (v : Nat) : Nat :=
  if v < 1000000 then v else if v < 10000000 then v / 10 else v / 100

/-- The composite primary key of `list_members`: no two rows share
`(list_id, user_id)`. -/
def MembersKeyUnique (db : DB) : Prop :=
  db.listMembers.Pairwise fun a b => ¬(a.listID = b.listID ∧ a.userID = b.userID)

/-- Every stored list has at least one owner-role membership row. -/
def EveryListHasOwner (db : DB) : Prop :=
  ∀ l ∈ db.lists, ∃ m ∈ db.listMembers, m.listID = l.id ∧ m.role = "owner"

/-- Every owner-role membership row of a stored list belongs to the user
recorded in the list's `owner_id` column (the creator). -/
def OwnerRowsAreCreator (db : DB) : Prop :=
  ∀ l ∈ db.lists, ∀ m ∈ db.listMembers, m.listID = l.id → m.role = "owner" →
    m.userID = l.ownerID

/-- The conjunction of the list-membership invariants. -/
def ListInv (db : DB) : Prop :=
  MembersKeyUnique db ∧ EveryListHasOwner db ∧ OwnerRowsAreCreator db

/-- One mutating call of the service layer, exactly as the HTTP handlers
invoke it.  The `newList` constructor carries the freshness of the
generated UUID (`uuid.New()` never collides with a stored id), which the
Go code relies on for its `Create` calls to succeed. -/
inductive ApiStep : DB → DB → Prop where
  | requestCode (db : DB) (now : Nat) (email code : String) :
      ApiStep db (createMagicLink db now email code).1
  | verifyCode (db : DB) (now : Nat) (email code uid : String) :
      ApiStep db (verifyMagicLinkWithInvitation db now email code uid).1
  | invite (db : DB) (now : Nat) (inviterID email invType : String) (listID : Option String)
      (newID : String) (b0 b1 b2 b3 : Fin 256) :
      ApiStep db (createInvitation db now inviterID email invType listID newID b0 b1 b2 b3).1
  | accept (db : DB) (now : Nat) (email code : String) :
      ApiStep db (acceptInvitation db now email code).1
  | revoke (db : DB) (invitationID userID : String) :
      ApiStep db (revokeInvitation db invitationID userID).1
  | newList (db : DB) (now : Nat) (uid name lid : String)
      (hf1 : ∀ l ∈ db.lists, l.id ≠ lid)
      (hf2 : ∀ m ∈ db.listMembers, m.listID ≠ lid) :
      ApiStep db (createList db now uid name lid).1
  | renameList (db : DB) (now : Nat) (lid uid name : String) :
      ApiStep db (updateList db now lid uid name).1
  | dropList (db : DB) (lid uid : String) :
      ApiStep db (deleteList db lid uid).1
  | addMember (db : DB) (now : Nat) (lid uid nm : String) :
      ApiStep db (addMemberToList db now lid uid nm).1
  | removeMember (db : DB) (lid uid mid : String) :
      ApiStep db (removeMemberFromList db lid uid mid).1

/-- The `models.User` literal built by `VerifyMagicLinkWithInvitation` for a
brand-new user. -/
def mkNewUser (uid email invBy : String) (now : Nat) : User :=
  { id := uid, email := email, invitedBy := some invBy, joinedAt := now, createdAt := now }

/-- Membership of a character in the uppercase-hex alphabet 0-9A-F. -/
def isUpperHexDigit (c : Char) : Bool :=
  (decide ('0' ≤ c) && decide (c ≤ '9')) || (decide ('A' ≤ c) && decide (c ≤ 'F'))

/-- An unused, still-unexpired server invitation for `e@x.com` with no
registered user: the state refuting the claim that `CreateInvitation`
succeeds for kind `server` whenever no user with the email exists. -/
def c6Inv : Invitation :=
  { id := "i1", code := "AAAA1111", email := "e@x.com", invType := "server",
    listID := none, invitedBy := "u1", expiresAt := 999, used := false, createdAt := 0 }

def c6DB : DB :=
  { users := [], magicLinks := [], invitations := [c6Inv],
    lists := [], listMembers := [], items := [] }

def wUser : User :=
  { id := "u1", email := "owner@x.com", invitedBy := none, joinedAt := 0, createdAt := 0 }

def wML : MagicLink :=
  { code := "123456", email := "new@x.com", expiresAt := 1000, used := false }

def wInv : Invitation :=
  { id := "i1", code := "CAFE0123", email := "new@x.com", invType := "server",
    listID := none, invitedBy := "u1", expiresAt := 5000, used := false, createdAt := 0 }

def wDB : DB :=
  { users := [wUser], magicLinks := [wML], invitations := [wInv],
    lists := [], listMembers := [], items := [] }

/-- `wDB` without the invitation: used for the no-invitation branches. -/
def wDB0 : DB :=
  { users := [wUser], magicLinks := [wML], invitations := [],
    lists := [], listMembers := [], items := [] }

def w2Owner : ListMember :=
  { listID := "l1", userID := "u1", role := "owner", joinedAt := 0 }

def w2Member : ListMember :=
  { listID := "l1", userID := "u2", role := "member", joinedAt := 0 }

def w2List : ShoppingList :=
  { id := "l1", name := "Groceries", ownerID := "u1", createdAt := 0, updatedAt := 0 }

def w2DB : DB :=
  { users := [wUser], magicLinks := [], invitations := [],
    lists := [w2List], listMembers := [w2Owner, w2Member], items := [] }

def w10Inv : Invitation :=
  { id := "i1", code := "AAAA1111", email := "old@x.com", invType := "server",
    listID := none, invitedBy := "u1", expiresAt := 5, used := false, createdAt := 0 }

def w10DB : DB :=
  { users := [wUser], magicLinks := [], invitations := [w10Inv],
    lists := [], listMembers := [], items := [] }

theorem decDigits_of_lt (n : Nat) (h : n < 10) : decDigits n = [n] := by
  unfold decDigits; simp [h]

theorem decDigits_of_ge (n : Nat) (h : 10 ≤ n) :
    decDigits n = decDigits (n / 10) ++ [n % 10] := by
  conv_lhs => unfold decDigits
  simp [Nat.not_lt.mpr h]

theorem decDigits_digit_lt (n : Nat) : ∀ d ∈ decDigits n, d < 10 := by
  induction n using Nat.strong_induction_on with
  | _ n ih =>
    by_cases h : n < 10
    · rw [decDigits_of_lt n h]; simpa using h
    · rw [decDigits_of_ge n (Nat.le_of_not_lt h)]
      intro d hd
      rcases List.mem_append.1 hd with hd | hd
      · exact ih (n / 10) (Nat.div_lt_self (by omega) (by norm_num)) d hd
      · simp at hd; omega

theorem decDigits_len_le (k : Nat) : ∀ n, n < 10 ^ (k + 1) → (decDigits n).length ≤ k + 1 := by
  induction k with
  | zero =>
    intro n hn
    rw [decDigits_of_lt n (by simpa using hn)]
    simp
  | succ k ih =>
    intro n hn
    by_cases h : n < 10
    · rw [decDigits_of_lt n h]; simp
    · rw [decDigits_of_ge n (Nat.le_of_not_lt h)]
      have : n / 10 < 10 ^ (k + 1) := by
        apply Nat.div_lt_of_lt_mul
        calc n < 10 ^ (k + 2) := hn
        _ = 10 * 10 ^ (k + 1) := by ring
      have := ih (n / 10) this
      simp [List.length_append]
      omega

theorem decDigits_len_eq (k : Nat) :
    ∀ n, 10 ^ k ≤ n → n < 10 ^ (k + 1) → (decDigits n).length = k + 1 := by
  induction k with
  | zero =>
    intro n h1 h2
    rw [decDigits_of_lt n (by simpa using h2)]
    simp
  | succ k ih =>
    intro n h1 h2
    have h10 : 10 ≤ n := le_trans (by calc (10:Nat) = 10 ^ 1 := by norm_num
      _ ≤ 10 ^ (k + 1) := Nat.pow_le_pow_right (by norm_num) (by omega)) h1
    rw [decDigits_of_ge n h10]
    have hlow : 10 ^ k ≤ n / 10 := by
      rw [Nat.le_div_iff_mul_le (by norm_num)]
      calc 10 ^ k * 10 = 10 ^ (k + 1) := by ring
      _ ≤ n := h1
    have hhigh : n / 10 < 10 ^ (k + 1) := by
      apply Nat.div_lt_of_lt_mul
      calc n < 10 ^ (k + 2) := h2
      _ = 10 * 10 ^ (k + 1) := by ring
    have := ih (n / 10) hlow hhigh
    simp [List.length_append]
    omega

theorem unDigits_append_single (l : List Nat) (d : Nat) :
    unDigits (l ++ [d]) = unDigits l * 10 + d := by
  simp [unDigits, List.foldl_append]

theorem unDigits_decDigits (n : Nat) : unDigits (decDigits n) = n := by
  induction n using Nat.strong_induction_on with
  | _ n ih =>
    by_cases h : n < 10
    · rw [decDigits_of_lt n h]; simp [unDigits]
    · rw [decDigits_of_ge n (Nat.le_of_not_lt h), unDigits_append_single,
        ih (n / 10) (Nat.div_lt_self (by omega) (by norm_num))]
      omega

theorem foldl_zeros (k : Nat) :
    List.foldl (fun a d => a * 10 + d) 0 (List.replicate k 0) = 0 := by
  induction k with
  | zero => rfl
  | succ k ih => simpa [List.replicate_succ] using ih

theorem unDigits_pad6 (l : List Nat) : unDigits (pad6 l) = unDigits l := by
  simp [unDigits, pad6, List.foldl_append, foldl_zeros]

theorem pad6_len (l : List Nat) (h : l.length ≤ 6) : (pad6 l).length = 6 := by
  simp [pad6]; omega

theorem pad6_of_ge (l : List Nat) (h : 6 ≤ l.length) : pad6 l = l := by
  simp [pad6, Nat.sub_eq_zero_of_le h]

theorem pad6_digit_lt (n : Nat) : ∀ d ∈ pad6 (decDigits n), d < 10 := by
  intro d hd
  rcases List.mem_append.1 hd with hd | hd
  · have := List.eq_of_mem_replicate hd; omega
  · exact decDigits_digit_lt n d hd

theorem hexDigitChar_inj :
    ∀ d, d < 16 → ∀ e, e < 16 → hexDigitChar d = hexDigitChar e → d = e := by
  decide

theorem map_hexDigitChar_inj :
    ∀ l1 l2 : List Nat, (∀ d ∈ l1, d < 16) → (∀ d ∈ l2, d < 16) →
      l1.map hexDigitChar = l2.map hexDigitChar → l1 = l2 := by
  intro l1
  induction l1 with
  | nil => intro l2 _ _ h; cases l2 <;> simp_all
  | cons a l ih =>
    intro l2 h1 h2 h
    cases l2 with
    | nil => simp_all
    | cons b l2 =>
      simp only [List.map_cons, List.cons.injEq] at h
      have ha : a = b :=
        hexDigitChar_inj a (h1 a (by simp)) b (h2 b (by simp)) h.1
      have := ih l2 (fun d hd => h1 d (by simp [hd])) (fun d hd => h2 d (by simp [hd])) h.2
      simp [ha, this]

theorem fmt06_inj (a b : Nat) (h : fmt06 a = fmt06 b) : a = b := by
  have hdata : (pad6 (decDigits a)).map hexDigitChar = (pad6 (decDigits b)).map hexDigitChar :=
    congrArg String.data h
  have hpad : pad6 (decDigits a) = pad6 (decDigits b) :=
    map_hexDigitChar_inj _ _
      (fun d hd => lt_trans (pad6_digit_lt a d hd) (by norm_num))
      (fun d hd => lt_trans (pad6_digit_lt b d hd) (by norm_num)) hdata
  have := congrArg unDigits hpad
  rwa [unDigits_pad6, unDigits_pad6, unDigits_decDigits, unDigits_decDigits] at this

theorem gIdx_lt (v : Nat) (h : v < 100000000) : gIdx v < 1000000 := by
  unfold gIdx; split_ifs <;> omega

theorem take6_append (X Y : List Char) (h : X.length = 6) : (X ++ Y).take 6 = X := by
  rw [← h, List.take_left]

theorem take6_fmt06 (v : Nat) (h : v < 100000000) :
    (fmt06 v).data.take 6 = (fmt06 (gIdx v)).data := by
  have p6 : (10:Nat) ^ 6 = 1000000 := by norm_num
  have p7 : (10:Nat) ^ 7 = 10000000 := by norm_num
  have p8 : (10:Nat) ^ 8 = 100000000 := by norm_num
  have p5 : (10:Nat) ^ 5 = 100000 := by norm_num
  by_cases h1 : v < 1000000
  · have hl : (decDigits v).length ≤ 6 := decDigits_len_le 5 v (by omega)
    have hlen : ((pad6 (decDigits v)).map hexDigitChar).length = 6 := by
      simpa using pad6_len _ hl
    simp only [fmt06, gIdx, if_pos h1]
    exact List.take_of_length_le (le_of_eq hlen)
  · by_cases h2 : v < 10000000
    · have h10 : 10 ≤ v := by omega
      have hlen7 : (decDigits v).length = 7 := decDigits_len_eq 6 v (by omega) (by omega)
      have hq : (decDigits (v / 10)).length = 6 :=
        decDigits_len_eq 5 (v / 10) (by omega) (by omega)
      simp only [fmt06, gIdx, if_neg h1, if_pos h2]
      rw [pad6_of_ge _ (by omega), pad6_of_ge _ (by omega),
        decDigits_of_ge v h10, List.map_append]
      exact take6_append _ _ (by simpa using hq)
    · have h10 : 10 ≤ v := by omega
      have h10q : 10 ≤ v / 10 := by omega
      have hq : (decDigits (v / 100)).length = 6 :=
        decDigits_len_eq 5 (v / 100) (by omega) (by omega)
      have hlen8 : (decDigits v).length = 8 := decDigits_len_eq 7 v (by omega) (by omega)
      simp only [fmt06, gIdx, if_neg h1, if_neg h2]
      rw [pad6_of_ge _ (by omega), pad6_of_ge _ (by omega),
        decDigits_of_ge v h10, decDigits_of_ge (v / 10) h10q,
        Nat.div_div_eq_div_mul, List.append_assoc, List.map_append]
      exact take6_append _ _ (by simpa using hq)

theorem generateCode_eq (b0 b1 b2 : Fin 256) :
    generateCode b0 b1 b2 = fmt06 (gIdx (b0.val * 65536 + b1.val * 256 + b2.val)) := by
  have hb0 := b0.isLt
  have hb1 := b1.isLt
  have hb2 := b2.isLt
  have hv : b0.val * 65536 + b1.val * 256 + b2.val < 100000000 := by omega
  unfold generateCode
  rw [take6_fmt06 _ hv]

theorem decDigits_zero : decDigits 0 = [0] :=
  decDigits_of_lt 0 (by norm_num)

theorem decDigits_100000 : decDigits 100000 = [1, 0, 0, 0, 0, 0] := by
  simp [decDigits]

theorem fmt06_zero : fmt06 0 = "000000" := by
  unfold fmt06; rw [decDigits_zero]; decide

theorem fmt06_100000 : fmt06 100000 = "100000" := by
  unfold fmt06; rw [decDigits_100000]; decide

theorem generateCode_000 : generateCode 0 0 0 = "000000" := by
  rw [generateCode_eq]
  have : (0 : Fin 256).val * 65536 + (0 : Fin 256).val * 256 + (0 : Fin 256).val = 0 := rfl
  rw [this]
  have : gIdx 0 = 0 := by simp [gIdx]
  rw [this, fmt06_zero]

theorem generateCode_1_134_160 : generateCode 1 134 160 = "100000" := by
  rw [generateCode_eq]
  have : (1 : Fin 256).val * 65536 + (134 : Fin 256).val * 256 + (160 : Fin 256).val = 100000 := rfl
  rw [this]
  have : gIdx 100000 = 100000 := by simp [gIdx]
  rw [this, fmt06_100000]

theorem generateCode_15_66_64 : generateCode 15 66 64 = "100000" := by
  rw [generateCode_eq]
  have : (15 : Fin 256).val * 65536 + (66 : Fin 256).val * 256 + (64 : Fin 256).val = 1000000 := rfl
  rw [this]
  have : gIdx 1000000 = 100000 := by norm_num [gIdx]
  rw [this, fmt06_100000]

theorem codePreimageCount_000000 : codePreimageCount "000000" = 1 := by
  unfold codePreimageCount
  have hset : (Finset.univ.filter fun b : Fin 256 × Fin 256 × Fin 256 =>
      generateCode b.1 b.2.1 b.2.2 = "000000") =
      {((0 : Fin 256), (0 : Fin 256), (0 : Fin 256))} := by
    apply Finset.ext
    intro b
    simp only [Finset.mem_filter, Finset.mem_univ, true_and, Finset.mem_singleton]
    constructor
    · intro hgen
      rw [generateCode_eq, ← fmt06_zero] at hgen
      have hinj := fmt06_inj _ _ hgen
      have hb0 := b.1.isLt
      have hb1 := b.2.1.isLt
      have hb2 := b.2.2.isLt
      have hv0 : b.1.val * 65536 + b.2.1.val * 256 + b.2.2.val = 0 := by
        revert hinj; unfold gIdx; split_ifs <;> omega
      rcases b with ⟨x, y, z⟩
      simp only at hv0
      have ex : x = 0 := Fin.ext (by omega)
      have ey : y = 0 := Fin.ext (by omega)
      have ez : z = 0 := Fin.ext (by omega)
      simp [ex, ey, ez]
    · intro hb
      subst hb
      exact generateCode_000
  rw [hset, Finset.card_singleton]

set_option maxRecDepth 4096 in
theorem codePreimageCount_100000 : 2 ≤ codePreimageCount "100000" := by
  have hx : ((1 : Fin 256), ((134 : Fin 256), (160 : Fin 256))) ∈
      (Finset.univ.filter fun b : Fin 256 × Fin 256 × Fin 256 =>
        generateCode b.1 b.2.1 b.2.2 = "100000") := by
    simp only [Finset.mem_filter, Finset.mem_univ, true_and]
    exact generateCode_1_134_160
  have hy : ((15 : Fin 256), ((66 : Fin 256), (64 : Fin 256))) ∈
      (Finset.univ.filter fun b : Fin 256 × Fin 256 × Fin 256 =>
        generateCode b.1 b.2.1 b.2.2 = "100000") := by
    simp only [Finset.mem_filter, Finset.mem_univ, true_and]
    exact generateCode_15_66_64
  have hne : ((1 : Fin 256), ((134 : Fin 256), (160 : Fin 256))) ≠
      ((15 : Fin 256), ((66 : Fin 256), (64 : Fin 256))) := by decide
  exact Finset.one_lt_card.mpr ⟨_, hx, _, hy, hne⟩

theorem createMagicLink_tables (db : DB) (now : Nat) (email code : String) :
    (createMagicLink db now email code).1.lists = db.lists ∧
    (createMagicLink db now email code).1.listMembers = db.listMembers := by
  unfold createMagicLink
  dsimp only
  split <;> simp

theorem verify_tables (db : DB) (now : Nat) (email code uid : String) :
    (verifyMagicLinkWithInvitation db now email code uid).1.lists = db.lists ∧
    (verifyMagicLinkWithInvitation db now email code uid).1.listMembers = db.listMembers := by
  unfold verifyMagicLinkWithInvitation
  dsimp only
  split
  · simp
  · split
    · split <;> simp [markMagicLinkUsed]
    · split
      · simp [markMagicLinkUsed]
      · split
        · simp [markMagicLinkUsed]
        · rename_i db2 heq
          unfold createUserRow at heq
          split at heq
          · exact absurd heq (by simp)
          · cases heq
            simp [markMagicLinkUsed]

theorem createInvitation_tables (db : DB) (now : Nat) (inviterID email invType : String)
    (listID : Option String) (newID : String) (b0 b1 b2 b3 : Fin 256) :
    (createInvitation db now inviterID email invType listID newID b0 b1 b2 b3).1.lists =
      db.lists ∧
    (createInvitation db now inviterID email invType listID newID b0 b1 b2 b3).1.listMembers =
      db.listMembers := by
  unfold createInvitation
  dsimp only
  repeat' split
  all_goals (first | rfl | simp)

theorem acceptInvitation_tables (db : DB) (now : Nat) (email code : String) :
    (acceptInvitation db now email code).1.lists = db.lists ∧
    (acceptInvitation db now email code).1.listMembers = db.listMembers := by
  unfold acceptInvitation
  split <;> simp

theorem revokeInvitation_tables (db : DB) (invitationID userID : String) :
    (revokeInvitation db invitationID userID).1.lists = db.lists ∧
    (revokeInvitation db invitationID userID).1.listMembers = db.listMembers := by
  unfold revokeInvitation
  dsimp only
  split <;> simp

theorem filter_length_eq {α : Type} (l : List α) (p : α → Bool)
    (h : (l.filter p).length = l.length) : ∀ a ∈ l, p a := by
  induction l with
  | nil => simp
  | cons a t ih =>
    by_cases hp : p a
    · simp only [List.filter_cons, if_pos hp, List.length_cons, Nat.add_right_cancel_iff] at h
      intro b hb
      rcases List.mem_cons.1 hb with hb | hb
      · rwa [hb]
      · exact ih h b hb
    · exfalso
      simp only [List.filter_cons, if_neg hp, List.length_cons] at h
      have := List.length_filter_le p t
      omega

theorem filter_length_ne {α : Type} (l : List α) (p : α → Bool) (a : α)
    (ha : a ∈ l) (hpa : p a = false) : (l.filter p).length ≠ l.length := by
  intro h
  have := filter_length_eq l p h a ha
  rw [hpa] at this
  exact Bool.false_ne_true this

theorem createList_result (db : DB) (now : Nat) (uid name lid : String)
    (hf1 : ∀ l ∈ db.lists, l.id ≠ lid)
    (hf2 : ∀ m ∈ db.listMembers, m.listID ≠ lid) :
    ((createList db now uid name lid).1 = db ∧
     ∃ e, (createList db now uid name lid).2 = .error e) ∨
    createList db now uid name lid =
      ({ db with
         lists := db.lists ++
           [{ id := lid, name := trimSpace name, ownerID := uid, createdAt := now,
              updatedAt := now }],
         listMembers := db.listMembers ++
           [{ listID := lid, userID := uid, role := "owner", joinedAt := now }] },
       .ok { id := lid, name := trimSpace name, ownerID := uid, createdAt := now,
             updatedAt := now }) := by
  have h1 : (db.lists.any fun l => l.id == lid) = false := by
    rw [List.any_eq_false]; intro x hx; simpa using hf1 x hx
  have h2 : (db.listMembers.any fun m => m.listID == lid && m.userID == uid) = false := by
    rw [List.any_eq_false]; intro x hx; simp [hf2 x hx]
  unfold createList
  dsimp only
  split
  · exact Or.inl ⟨rfl, _, rfl⟩
  · split
    · exact Or.inl ⟨rfl, _, rfl⟩
    · split
      · exact Or.inl ⟨rfl, _, rfl⟩
      · right
        rw [h1, h2]
        simp

theorem updateList_result (db : DB) (now : Nat) (lid uid name : String) :
    (updateList db now lid uid name).1.listMembers = db.listMembers ∧
    ∀ l2 ∈ (updateList db now lid uid name).1.lists,
      ∃ l ∈ db.lists, l2.id = l.id ∧ l2.ownerID = l.ownerID := by
  unfold updateList
  dsimp only
  split
  · exact ⟨rfl, fun l2 hl2 => ⟨l2, hl2, rfl, rfl⟩⟩
  · split
    · exact ⟨rfl, fun l2 hl2 => ⟨l2, hl2, rfl, rfl⟩⟩
    · split
      · exact ⟨rfl, fun l2 hl2 => ⟨l2, hl2, rfl, rfl⟩⟩
      · split
        · exact ⟨rfl, fun l2 hl2 => ⟨l2, hl2, rfl, rfl⟩⟩
        · split
          · exact ⟨rfl, fun l2 hl2 => ⟨l2, hl2, rfl, rfl⟩⟩
          · rename_i lfound hfind
            refine ⟨rfl, ?_⟩
            intro l2 hl2
            rw [List.mem_map] at hl2
            obtain ⟨x, hx, hfx⟩ := hl2
            by_cases hid : (x.id == lfound.id) = true
            · rw [if_pos hid] at hfx
              exact ⟨lfound, List.mem_of_find?_eq_some hfind, by rw [← hfx], by rw [← hfx]⟩
            · rw [if_neg hid] at hfx
              exact ⟨x, hx, by rw [← hfx], by rw [← hfx]⟩

theorem deleteList_result (db : DB) (lid uid : String) :
    (deleteList db lid uid).1 = db ∨
    ((deleteList db lid uid).1.listMembers =
        db.listMembers.filter (fun m => !(m.listID == lid)) ∧
     (((deleteList db lid uid).1.lists = db.lists ∧ ∀ l ∈ db.lists, l.id ≠ lid) ∨
      (deleteList db lid uid).1.lists = db.lists.filter (fun l => !(l.id == lid)))) := by
  unfold deleteList
  split
  · exact Or.inl rfl
  · split
    · exact Or.inl rfl
    · split
      · exact Or.inl rfl
      · dsimp only
        split
        · rename_i hlen
          refine Or.inr ⟨rfl, Or.inl ⟨rfl, ?_⟩⟩
          intro l hl
          have hall := filter_length_eq db.lists (fun l => !(l.id == lid)) (by simpa using hlen)
          have := hall l hl
          simpa using this
        · exact Or.inr ⟨rfl, Or.inr rfl⟩

theorem addMember_result (db : DB) (now : Nat) (lid uid nm : String) :
    (addMemberToList db now lid uid nm).1 = db ∨
    ((∀ m ∈ db.listMembers, ¬(m.listID = lid ∧ m.userID = nm)) ∧
     (addMemberToList db now lid uid nm).1 =
       { db with listMembers := db.listMembers ++
           [{ listID := lid, userID := nm, role := "member", joinedAt := now }] }) := by
  unfold addMemberToList
  split
  · exact Or.inl rfl
  · split
    · exact Or.inl rfl
    · split
      · exact Or.inl rfl
      · split
        · exact Or.inl rfl
        · split
          · exact Or.inl rfl
          · rename_i hfind
            refine Or.inr ⟨?_, rfl⟩
            intro m hm hkey
            have hnone : (db.listMembers.find? fun m => m.listID == lid && m.userID == nm)
                = none := by
              cases hopt : db.listMembers.find? fun m => m.listID == lid && m.userID == nm
              · rfl
              · exact absurd (by rw [hopt]; rfl) hfind
            have := List.find?_eq_none.mp hnone m hm
            simp [hkey.1, hkey.2] at this

theorem removeMember_result (db : DB) (lid uid mid : String) :
    (removeMemberFromList db lid uid mid).1 = db ∨
    ((isListOwner db lid uid = true ∨ uid = mid) ∧
     ¬(uid = mid ∧ isListOwner db lid uid = true ∧ (ownerRows db lid).length ≤ 1) ∧
     (removeMemberFromList db lid uid mid).1 =
       { db with listMembers :=
           db.listMembers.filter fun m => !(m.listID == lid && m.userID == mid) }) := by
  unfold removeMemberFromList
  dsimp only
  split
  · exact Or.inl rfl
  · split
    · exact Or.inl rfl
    · split
      · exact Or.inl rfl
      · split
        · exact Or.inl rfl
        · split
          · exact Or.inl rfl
          · rename_i haccess hguard
            split
            · exact Or.inl rfl
            · refine Or.inr ⟨?_, ?_, rfl⟩
              · by_cases howner : isListOwner db lid uid = true
                · exact Or.inl howner
                · right
                  have hof : isListOwner db lid uid = false := by
                    cases hv : isListOwner db lid uid
                    · rfl
                    · exact absurd hv howner
                  cases hu : uid == mid
                  · exact absurd (by rw [hof, hu]; rfl) haccess
                  · simpa using hu
              · intro hbad
                obtain ⟨he, ho, hc⟩ := hbad
                apply hguard
                subst he
                simp [ho, hc]

theorem isListOwner_iff (db : DB) (lid uid : String) :
    isListOwner db lid uid = true ↔
      ∃ m ∈ db.listMembers, m.listID = lid ∧ m.userID = uid ∧ m.role = "owner" := by
  unfold isListOwner
  rw [List.find?_isSome]
  constructor
  · intro hex
    obtain ⟨m, hm, hp⟩ := hex
    refine ⟨m, hm, ?_⟩
    simp only [Bool.and_eq_true, beq_iff_eq] at hp
    exact ⟨hp.1.1, hp.1.2, hp.2⟩
  · intro hex
    obtain ⟨m, hm, hp⟩ := hex
    refine ⟨m, hm, ?_⟩
    simp [hp.1, hp.2.1, hp.2.2]

theorem pairwise_two {α : Type} {R : α → α → Prop} (l : List α)
    (hp : l.Pairwise R) (hl : 2 ≤ l.length) : ∃ x ∈ l, ∃ y ∈ l, R x y := by
  match l, hp with
  | [], _ => simp at hl
  | [a], _ => simp at hl
  | a :: b :: t, hp =>
    refine ⟨a, by simp, b, by simp, ?_⟩
    exact (List.pairwise_cons.mp hp).1 b (by simp)

theorem listInv_of_tables_eq (db db' : DB) (hl : db'.lists = db.lists)
    (hm : db'.listMembers = db.listMembers) (h : ListInv db) : ListInv db' := by
  unfold ListInv MembersKeyUnique EveryListHasOwner OwnerRowsAreCreator at h ⊢
  rw [hl, hm]
  exact h

theorem listInv_createList (db : DB) (now : Nat) (uid name lid : String)
    (hf1 : ∀ l ∈ db.lists, l.id ≠ lid)
    (hf2 : ∀ m ∈ db.listMembers, m.listID ≠ lid)
    (h : ListInv db) : ListInv (createList db now uid name lid).1 := by
  obtain ⟨hk, ho, hc⟩ := h
  rcases createList_result db now uid name lid hf1 hf2 with ⟨heq, _⟩ | heq
  · rw [heq]; exact ⟨hk, ho, hc⟩
  · have heq1 := congrArg Prod.fst heq
    rw [heq1]
    refine ⟨?_, ?_, ?_⟩
    · unfold MembersKeyUnique at hk ⊢
      dsimp only
      rw [List.pairwise_append]
      refine ⟨hk, by simp, ?_⟩
      intro a ha b hb
      simp only [List.mem_singleton] at hb
      subst hb
      intro hbad
      exact hf2 a ha hbad.1
    · unfold EveryListHasOwner at ho ⊢
      dsimp only
      intro l hl
      rcases List.mem_append.1 hl with hl | hl
      · obtain ⟨m, hm, hm2⟩ := ho l hl
        exact ⟨m, List.mem_append_left _ hm, hm2⟩
      · simp only [List.mem_singleton] at hl
        subst hl
        exact ⟨⟨lid, uid, "owner", now⟩, List.mem_append_right _ (by simp), rfl, rfl⟩
    · unfold OwnerRowsAreCreator at hc ⊢
      dsimp only
      intro l hl m hm hml hrole
      rcases List.mem_append.1 hl with hl | hl <;> rcases List.mem_append.1 hm with hm | hm
      · exact hc l hl m hm hml hrole
      · simp only [List.mem_singleton] at hm
        subst hm
        exact absurd hml.symm (Ne.symm (hf1 l hl)).symm
      · simp only [List.mem_singleton] at hl
        subst hl
        exact absurd hml (hf2 m hm)
      · simp only [List.mem_singleton] at hl hm
        subst hl
        subst hm
        rfl

theorem listInv_updateList (db : DB) (now : Nat) (lid uid name : String)
    (h : ListInv db) : ListInv (updateList db now lid uid name).1 := by
  obtain ⟨hk, ho, hc⟩ := h
  obtain ⟨hm, hl⟩ := updateList_result db now lid uid name
  refine ⟨?_, ?_, ?_⟩
  · unfold MembersKeyUnique at hk ⊢
    rw [hm]
    exact hk
  · intro l2 hl2
    obtain ⟨l, hmem, hid, _⟩ := hl l2 hl2
    obtain ⟨m, hmm, hm1, hm2⟩ := ho l hmem
    exact ⟨m, hm ▸ hmm, by rw [hid, hm1], hm2⟩
  · intro l2 hl2 m hmm hml hrole
    obtain ⟨l, hmem, hid, hown⟩ := hl l2 hl2
    rw [hown]
    exact hc l hmem m (hm ▸ hmm) (by rw [← hid, hml]) hrole

theorem listInv_deleteList (db : DB) (lid uid : String)
    (h : ListInv db) : ListInv (deleteList db lid uid).1 := by
  obtain ⟨hk, ho, hc⟩ := h
  rcases deleteList_result db lid uid with heq | ⟨hmem, hcase⟩
  · rw [heq]; exact ⟨hk, ho, hc⟩
  · have hsub : ∀ m ∈ (deleteList db lid uid).1.listMembers, m ∈ db.listMembers := by
      intro m hm
      rw [hmem] at hm
      exact (List.mem_filter.1 hm).1
    have hlists_sub : ∀ l ∈ (deleteList db lid uid).1.lists,
        l ∈ db.lists ∧ l.id ≠ lid := by
      intro l hl
      rcases hcase with ⟨hle, hall⟩ | hle
      · rw [hle] at hl
        exact ⟨hl, hall l hl⟩
      · rw [hle] at hl
        have := List.mem_filter.1 hl
        refine ⟨this.1, ?_⟩
        simpa using this.2
    refine ⟨?_, ?_, ?_⟩
    · unfold MembersKeyUnique at hk ⊢
      rw [hmem]
      exact hk.sublist (List.filter_sublist _)
    · intro l hl
      obtain ⟨hmem2, hne⟩ := hlists_sub l hl
      obtain ⟨m, hmm, hm1, hm2⟩ := ho l hmem2
      refine ⟨m, ?_, hm1, hm2⟩
      rw [hmem]
      refine List.mem_filter.2 ⟨hmm, ?_⟩
      simp [hm1, hne]
    · intro l hl m hmm hml hrole
      exact hc l (hlists_sub l hl).1 m (hsub m hmm) hml hrole

theorem listInv_addMember (db : DB) (now : Nat) (lid uid nm : String)
    (h : ListInv db) : ListInv (addMemberToList db now lid uid nm).1 := by
  obtain ⟨hk, ho, hc⟩ := h
  rcases addMember_result db now lid uid nm with heq | ⟨hnew, heq⟩ <;> rw [heq]
  · exact ⟨hk, ho, hc⟩
  · refine ⟨?_, ?_, ?_⟩
    · unfold MembersKeyUnique at hk ⊢
      dsimp only
      rw [List.pairwise_append]
      refine ⟨hk, by simp, ?_⟩
      intro a ha b hb
      simp only [List.mem_singleton] at hb
      subst hb
      exact hnew a ha
    · intro l hl
      obtain ⟨m, hm, hm2⟩ := ho l hl
      exact ⟨m, List.mem_append_left _ hm, hm2⟩
    · intro l hl m hm hml hrole
      rcases List.mem_append.1 hm with hm | hm
      · exact hc l hl m hm hml hrole
      · simp only [List.mem_singleton] at hm
        subst hm
        simp at hrole

theorem listInv_removeMember (db : DB) (lid uid mid : String)
    (h : ListInv db) : ListInv (removeMemberFromList db lid uid mid).1 := by
  obtain ⟨hk, ho, hc⟩ := h
  rcases removeMember_result db lid uid mid with heq | ⟨hacc, hguard, heq⟩ <;> rw [heq]
  · exact ⟨hk, ho, hc⟩
  · refine ⟨?_, ?_, ?_⟩
    · unfold MembersKeyUnique at hk ⊢
      dsimp only
      exact hk.sublist (List.filter_sublist _)
    · intro l hl
      obtain ⟨m, hm, hmlid, hmrole⟩ := ho l hl
      by_cases hlid : l.id = lid
      · subst hlid
        by_cases howner : isListOwner db l.id uid = true
        · by_cases hue : uid = mid
          · -- an owner removing themselves: the guard guarantees a second owner row
            have hcount : ¬ (ownerRows db l.id).length ≤ 1 := fun hle =>
              hguard ⟨hue, howner, hle⟩
            have hpair : (ownerRows db l.id).Pairwise
                (fun a b => ¬(a.listID = b.listID ∧ a.userID = b.userID)) :=
              hk.sublist (List.filter_sublist _)
            obtain ⟨x, hx, y, hy, hR⟩ := pairwise_two _ hpair (by omega)
            obtain ⟨hxmem, hxp⟩ := List.mem_filter.1 hx
            obtain ⟨hymem, hyp⟩ := List.mem_filter.1 hy
            simp only [Bool.and_eq_true, beq_iff_eq] at hxp hyp
            by_cases hxu : x.userID = mid
            · have hyu : y.userID ≠ mid := by
                intro hyu
                exact hR ⟨hxp.1.trans hyp.1.symm, hxu.trans hyu.symm⟩
              refine ⟨y, List.mem_filter.2 ⟨hymem, ?_⟩, hyp.1, hyp.2⟩
              simp [hyp.1, hyu]
            · refine ⟨x, List.mem_filter.2 ⟨hxmem, ?_⟩, hxp.1, hxp.2⟩
              simp [hxp.1, hxu]
          · -- an owner removing someone else keeps their own owner row
            obtain ⟨m3, hm3, h3l, h3u, h3r⟩ := (isListOwner_iff db l.id uid).mp howner
            refine ⟨m3, List.mem_filter.2 ⟨hm3, ?_⟩, h3l, h3r⟩
            simp only [Bool.not_eq_true', Bool.and_eq_false_iff]
            right
            simp [h3u]
            exact fun hbad => hue hbad
        · -- a non-owner self-removal cannot touch an owner row
          have hmid : m.userID ≠ mid := by
            intro hmu
            rcases hacc with howner2 | hue
            · exact howner howner2
            · exact howner ((isListOwner_iff db l.id uid).mpr
                ⟨m, hm, hmlid, by rw [hmu, hue], hmrole⟩)
          refine ⟨m, List.mem_filter.2 ⟨hm, ?_⟩, hmlid, hmrole⟩
          simp [hmlid, hmid]
      · refine ⟨m, List.mem_filter.2 ⟨hm, ?_⟩, hmlid, hmrole⟩
        simp [hmlid, hlid]
    · intro l hl m hm hml hrole
      exact hc l hl m (List.mem_filter.1 hm).1 hml hrole

/-- Every service-layer transition preserves the membership invariants. -/
theorem listInv_step (db db' : DB) (h : ApiStep db db') (hinv : ListInv db) :
    ListInv db' := by
  cases h with
  | requestCode now email code =>
    exact listInv_of_tables_eq _ _ (createMagicLink_tables db now email code).1
      (createMagicLink_tables db now email code).2 hinv
  | verifyCode now email code uid =>
    exact listInv_of_tables_eq _ _ (verify_tables db now email code uid).1
      (verify_tables db now email code uid).2 hinv
  | invite now inviterID email invType listID newID b0 b1 b2 b3 =>
    exact listInv_of_tables_eq _ _
      (createInvitation_tables db now inviterID email invType listID newID b0 b1 b2 b3).1
      (createInvitation_tables db now inviterID email invType listID newID b0 b1 b2 b3).2 hinv
  | accept now email code =>
    exact listInv_of_tables_eq _ _ (acceptInvitation_tables db now email code).1
      (acceptInvitation_tables db now email code).2 hinv
  | revoke invitationID userID =>
    exact listInv_of_tables_eq _ _ (revokeInvitation_tables db invitationID userID).1
      (revokeInvitation_tables db invitationID userID).2 hinv
  | newList now uid name lid hf1 hf2 =>
    exact listInv_createList db now uid name lid hf1 hf2 hinv
  | renameList now lid uid name =>
    exact listInv_updateList db now lid uid name hinv
  | dropList lid uid =>
    exact listInv_deleteList db lid uid hinv
  | addMember now lid uid nm =>
    exact listInv_addMember db now lid uid nm hinv
  | removeMember lid uid mid =>
    exact listInv_removeMember db lid uid mid hinv

theorem findMagicLink_code (db : DB) (code email : String) (now : Nat) (ml : MagicLink)
    (h : findMagicLink db code email now = some ml) :
    ml.code = code ∧ ml.email = email ∧ ml.used = false ∧ now < ml.expiresAt ∧
      ml ∈ db.magicLinks := by
  have hp := List.find?_some h
  have hm := List.mem_of_find?_eq_some h
  simp only [Bool.and_eq_true, beq_iff_eq, decide_eq_true_eq] at hp
  refine ⟨?_, ?_, ?_, ?_, hm⟩ <;> tauto

theorem findMagicLink_marked (db : DB) (code email : String) (now2 : Nat) :
    findMagicLink (markMagicLinkUsed db code) code email now2 = none := by
  unfold findMagicLink markMagicLinkUsed
  dsimp only
  rw [List.find?_eq_none]
  intro x hx
  rw [List.mem_map] at hx
  obtain ⟨ml, _, hfx⟩ := hx
  by_cases hc : (ml.code == code) = true
  · rw [if_pos hc] at hfx
    subst hfx
    simp
  · rw [if_neg hc] at hfx
    subst hfx
    simp
    intro hbad
    rw [hbad] at hc
    simp at hc

theorem verify_fails_of_no_match (db : DB) (now : Nat) (email code uid : String)
    (h : findMagicLink db code email now = none) :
    verifyMagicLinkWithInvitation db now email code uid =
      (db, .error .invalidOrExpiredCode) := by
  unfold verifyMagicLinkWithInvitation
  rw [h]

theorem verify_ok_magicLinks (db : DB) (now : Nat) (email code uid : String)
    (res : User × Option Invitation)
    (h : (verifyMagicLinkWithInvitation db now email code uid).2 = .ok res) :
    (verifyMagicLinkWithInvitation db now email code uid).1.magicLinks =
      (markMagicLinkUsed db code).magicLinks := by
  revert h
  unfold verifyMagicLinkWithInvitation
  dsimp only
  split
  · intro h; exact absurd h (by simp)
  · rename_i ml hml
    have hcode : ml.code = code := (findMagicLink_code db code email now ml hml).1
    rw [hcode]
    split
    · split
      · intro _; rfl
      · intro _; rfl
    · split
      · intro h; exact absurd h (by simp)
      · split
        · intro h; exact absurd h (by simp)
        · rename_i db2 heq
          intro _
          unfold createUserRow at heq
          split at heq
          · exact absurd heq (by simp)
          · cases heq; rfl

theorem verify_users_superset (db : DB) (now : Nat) (email code uid : String) :
    ∀ u ∈ (verifyMagicLinkWithInvitation db now email code uid).1.users,
      u ∈ db.users ∨ ∃ inv ∈ db.invitations,
        inv.email = email ∧ inv.used = false ∧ now < inv.expiresAt := by
  unfold verifyMagicLinkWithInvitation
  dsimp only
  split
  · intro u hu; exact Or.inl hu
  · split
    · split
      · intro u hu; exact Or.inl hu
      · intro u hu; exact Or.inl hu
    · split
      · intro u hu; exact Or.inl hu
      · rename_i inv hinv
        split
        · intro u hu; exact Or.inl hu
        · rename_i db2 heq
          intro u hu
          have hmem := List.mem_of_find?_eq_some hinv
          have hp := List.find?_some hinv
          simp only [Bool.and_eq_true, beq_iff_eq, decide_eq_true_eq] at hp
          unfold createUserRow at heq
          split at heq
          · exact absurd heq (by simp)
          · cases heq
            rcases List.mem_append.1 hu with hu | hu
            · exact Or.inl hu
            · exact Or.inr ⟨inv, hmem, by tauto, by tauto, by tauto⟩

theorem verify_eq_invitationRequired (db : DB) (now : Nat) (email code uid : String)
    (ml : MagicLink)
    (hml : findMagicLink db code email now = some ml)
    (huser : db.users.find? (fun u => u.email == email) = none)
    (hinv : findPendingInvitation db email now = none) :
    verifyMagicLinkWithInvitation db now email code uid =
      (markMagicLinkUsed db code, .error .invitationRequired) := by
  have hcode : ml.code = code := (findMagicLink_code db code email now ml hml).1
  unfold verifyMagicLinkWithInvitation
  rw [hml]
  dsimp only
  rw [hcode]
  have huser1 : (markMagicLinkUsed db code).users.find? (fun u => u.email == email) = none :=
    huser
  have hinv1 : findPendingInvitation (markMagicLinkUsed db code) email now = none := hinv
  rw [huser1, hinv1]

theorem verify_eq_newUser (db : DB) (now : Nat) (email code uid : String)
    (ml : MagicLink) (inv : Invitation)
    (hml : findMagicLink db code email now = some ml)
    (huser : db.users.find? (fun u => u.email == email) = none)
    (hinv : findPendingInvitation db email now = some inv)
    (hfresh : ∀ u ∈ db.users, u.id ≠ uid) :
    verifyMagicLinkWithInvitation db now email code uid =
      ({ markMagicLinkUsed db code with
         users := db.users ++ [mkNewUser uid email inv.invitedBy now] },
       .ok (mkNewUser uid email inv.invitedBy now, some inv)) := by
  have hcode : ml.code = code := (findMagicLink_code db code email now ml hml).1
  have hemails := List.find?_eq_none.mp huser
  unfold verifyMagicLinkWithInvitation
  rw [hml]
  dsimp only
  rw [hcode]
  have huser1 : (markMagicLinkUsed db code).users.find? (fun u => u.email == email) = none :=
    huser
  have hinv1 : findPendingInvitation (markMagicLinkUsed db code) email now = some inv := hinv
  have hany : ((markMagicLinkUsed db code).users.any
      fun v => v.id == uid || v.email == email) = false := by
    rw [List.any_eq_false]
    intro x hx
    have h1 := hfresh x hx
    have h2 := hemails x hx
    simp only [Bool.or_eq_true, beq_iff_eq] at h2 ⊢
    intro hbad
    rcases hbad with hbad | hbad
    · exact h1 hbad
    · exact h2 (by simp [hbad])
  have hcr : createUserRow (markMagicLinkUsed db code) { id := uid, email := email, invitedBy := some inv.invitedBy, joinedAt := now, createdAt := now } =
      some { markMagicLinkUsed db code with
             users := db.users ++ [mkNewUser uid email inv.invitedBy now] } := by
    unfold createUserRow
    dsimp only
    rw [hany]
    simp [mkNewUser, markMagicLinkUsed]
  rw [huser1, hinv1]
  dsimp only
  rw [hcr]
  exact rfl

theorem verify_ok_of_user_exists (db : DB) (now : Nat) (email code uid : String)
    (ml : MagicLink) (user : User)
    (hml : findMagicLink db code email now = some ml)
    (huser : db.users.find? (fun u => u.email == email) = some user) :
    ∃ res, (verifyMagicLinkWithInvitation db now email code uid).2 = .ok res := by
  have hcode : ml.code = code := (findMagicLink_code db code email now ml hml).1
  unfold verifyMagicLinkWithInvitation
  rw [hml]
  dsimp only
  rw [hcode]
  have huser1 : (markMagicLinkUsed db code).users.find? (fun u => u.email == email) =
      some user := huser
  rw [huser1]
  dsimp only
  split
  · exact ⟨_, rfl⟩
  · exact ⟨_, rfl⟩

/-- Claim C1: when `VerifyCode` matches a valid one-time code for an email
with no existing `User`, the operation fails with `InvitationRequired` and
creates no user row if no pending invitation of either kind exists;
otherwise it creates and persists exactly one new user whose `invited_by`
is the invitation's inviter and whose `joined_at` is now, returning
`(newUser, invitation)`.  Moreover no execution of `VerifyCode` ever adds a
user row unless a matching pending invitation existed. -/
theorem claim1_invitation_gate (db : DB) (now : Nat) (email code uid : String) :
    ((∃ ml, findMagicLink db code email now = some ml) →
     db.users.find? (fun u => u.email == email) = none →
     ((findPendingInvitation db email now = none →
       (verifyMagicLinkWithInvitation db now email code uid).2 = .error .invitationRequired ∧
       (verifyMagicLinkWithInvitation db now email code uid).1.users = db.users) ∧
      (∀ inv, findPendingInvitation db email now = some inv →
       (∀ u ∈ db.users, u.id ≠ uid) →
       (verifyMagicLinkWithInvitation db now email code uid).2 =
         .ok (mkNewUser uid email inv.invitedBy now, some inv) ∧
       (verifyMagicLinkWithInvitation db now email code uid).1.users =
         db.users ++ [mkNewUser uid email inv.invitedBy now]))) ∧
    (∀ u ∈ (verifyMagicLinkWithInvitation db now email code uid).1.users,
      u ∈ db.users ∨ ∃ inv ∈ db.invitations,
        inv.email = email ∧ inv.used = false ∧ now < inv.expiresAt) := by
  constructor
  · rintro ⟨ml, hml⟩ huser
    constructor
    · intro hpend
      rw [verify_eq_invitationRequired db now email code uid ml hml huser hpend]
      exact ⟨rfl, rfl⟩
    · intro inv hpend hfresh
      rw [verify_eq_newUser db now email code uid ml inv hml huser hpend hfresh]
      exact ⟨rfl, rfl⟩
  · exact verify_users_superset db now email code uid

/-- Claim C3: a verified code cannot be verified again — after a successful
`VerifyCode` the same `(email, code)` pair fails with the invalid/expired
error at every later time, because the row was marked used. -/
theorem claim3_verify_at_most_once (db : DB) (now : Nat) (email code uid : String)
    (res : User × Option Invitation)
    (h : (verifyMagicLinkWithInvitation db now email code uid).2 = .ok res) :
    ∀ now2 uid2,
      verifyMagicLinkWithInvitation
        (verifyMagicLinkWithInvitation db now email code uid).1 now2 email code uid2 =
      ((verifyMagicLinkWithInvitation db now email code uid).1,
        .error .invalidOrExpiredCode) := by
  intro now2 uid2
  have hmark := verify_ok_magicLinks db now email code uid res h
  apply verify_fails_of_no_match
  have hcongr : findMagicLink (verifyMagicLinkWithInvitation db now email code uid).1
      code email now2 = findMagicLink (markMagicLinkUsed db code) code email now2 := by
    unfold findMagicLink
    rw [hmark]
  rw [hcongr, findMagicLink_marked]

/-- Claim C8: with a valid code, no user and no pending invitation,
`VerifyCode` fails with `InvitationRequired` but has already marked the
one-time code used, so a retry with the same pair fails with the
invalid/expired error although no user was ever created: the failure is not
atomic with respect to the code row. -/
theorem claim8_code_burned_on_invitation_required (db : DB) (now : Nat)
    (email code uid : String) (ml : MagicLink)
    (hml : findMagicLink db code email now = some ml)
    (huser : db.users.find? (fun u => u.email == email) = none)
    (hinv : findPendingInvitation db email now = none) :
    verifyMagicLinkWithInvitation db now email code uid =
      (markMagicLinkUsed db code, .error .invitationRequired) ∧
    (markMagicLinkUsed db code).users = db.users ∧
    (∃ ml2 ∈ (markMagicLinkUsed db code).magicLinks, ml2.code = code ∧ ml2.used = true) ∧
    (∀ now2 uid2,
      verifyMagicLinkWithInvitation (markMagicLinkUsed db code) now2 email code uid2 =
        (markMagicLinkUsed db code, .error .invalidOrExpiredCode)) := by
  obtain ⟨hcode, _, _, _, hmem⟩ := findMagicLink_code db code email now ml hml
  refine ⟨verify_eq_invitationRequired db now email code uid ml hml huser hinv, rfl, ?_, ?_⟩
  · refine ⟨{ ml with used := true }, ?_, by simpa using hcode, rfl⟩
    unfold markMagicLinkUsed
    dsimp only
    rw [List.mem_map]
    exact ⟨ml, hmem, by rw [if_pos (by simp [hcode])]⟩
  · intro now2 uid2
    exact verify_fails_of_no_match _ _ _ _ _ (findMagicLink_marked db code email now2)

theorem createMagicLink_ok_tables (db : DB) (now : Nat) (email code c2 : String)
    (h : (createMagicLink db now email code).2 = .ok c2) :
    (createMagicLink db now email code).1.magicLinks =
      db.magicLinks.filter (fun ml => !(ml.email == email)) ++
        [{ code := code, email := email, expiresAt := now + 15 * 60, used := false }] ∧
    (createMagicLink db now email code).1.users = db.users ∧
    (createMagicLink db now email code).1.invitations = db.invitations := by
  revert h
  unfold createMagicLink
  dsimp only
  split
  · intro h; exact absurd h (by simp)
  · intro _; exact ⟨rfl, rfl, rfl⟩

/-- Claim C4: issuing a second code for the same email deletes the first
code row outright — regardless of its used or expiry state — leaving
exactly one code row for that email; the first code then no longer
verifies, while the second one does (given an existing user or a pending
invitation for the email). -/
theorem claim4_request_code_twice (db : DB) (now1 now2 now3 : Nat)
    (email code1 code2 uid : String)
    (hne : code1 ≠ code2)
    (h2 : (createMagicLink (createMagicLink db now1 email code1).1 now2 email code2).2 =
      .ok code2) :
    ((createMagicLink (createMagicLink db now1 email code1).1 now2 email code2).1.magicLinks.filter
        (fun ml => ml.email == email) =
      [{ code := code2, email := email, expiresAt := now2 + 15 * 60, used := false }]) ∧
    (∀ uid2, verifyMagicLinkWithInvitation
        (createMagicLink (createMagicLink db now1 email code1).1 now2 email code2).1
        now3 email code1 uid2 =
      ((createMagicLink (createMagicLink db now1 email code1).1 now2 email code2).1,
        .error .invalidOrExpiredCode)) ∧
    (now3 < now2 + 15 * 60 →
     (((createMagicLink (createMagicLink db now1 email code1).1 now2 email
          code2).1.users.find? (fun u => u.email == email)).isSome ∨
      ((findPendingInvitation
          (createMagicLink (createMagicLink db now1 email code1).1 now2 email code2).1
          email now3).isSome ∧
       ∀ u ∈ (createMagicLink (createMagicLink db now1 email code1).1 now2 email
          code2).1.users, u.id ≠ uid)) →
     ∃ res, (verifyMagicLinkWithInvitation
        (createMagicLink (createMagicLink db now1 email code1).1 now2 email code2).1
        now3 email code2 uid).2 = .ok res) := by
  obtain ⟨hml, _, _⟩ :=
    createMagicLink_ok_tables (createMagicLink db now1 email code1).1 now2 email code2
      code2 h2
  have hrow2mem : ({ code := code2, email := email, expiresAt := now2 + 15 * 60, used := false } : MagicLink) ∈
      (createMagicLink (createMagicLink db now1 email code1).1 now2 email
        code2).1.magicLinks := by
    rw [hml]
    exact List.mem_append_right _ (by simp)
  refine ⟨?_, ?_, ?_⟩
  · rw [hml, List.filter_append]
    have hleft : ((createMagicLink db now1 email code1).1.magicLinks.filter
        (fun ml => !(ml.email == email))).filter (fun ml => ml.email == email) = [] := by
      rw [List.filter_eq_nil_iff]
      intro a ha
      have := (List.mem_filter.1 ha).2
      simp at this
      simp [this]
    rw [hleft]
    simp
  · intro uid2
    apply verify_fails_of_no_match
    unfold findMagicLink
    rw [hml, List.find?_eq_none]
    intro x hx
    rcases List.mem_append.1 hx with hx | hx
    · have := (List.mem_filter.1 hx).2
      simp only [Bool.not_eq_true'] at this
      simp [this]
    · simp only [List.mem_singleton] at hx
      subst hx
      simp
      intro hbad
      exact absurd hbad.symm hne
  · intro hexp hacc
    have hfind2 : ∃ mlx, findMagicLink
        (createMagicLink (createMagicLink db now1 email code1).1 now2 email code2).1
        code2 email now3 = some mlx := by
      rw [← Option.isSome_iff_exists]
      unfold findMagicLink
      rw [List.find?_isSome]
      refine ⟨_, hrow2mem, ?_⟩
      simp [hexp]
    obtain ⟨mlx, hmlx⟩ := hfind2
    cases hfind : (createMagicLink (createMagicLink db now1 email code1).1 now2 email
        code2).1.users.find? (fun u => u.email == email) with
    | some user =>
      exact verify_ok_of_user_exists _ _ _ _ uid mlx user hmlx hfind
    | none =>
      rcases hacc with hacc | ⟨hpend, hfresh⟩
      · rw [hfind] at hacc
        simp at hacc
      · obtain ⟨inv, hinv⟩ := Option.isSome_iff_exists.mp hpend
        rw [verify_eq_newUser _ _ _ _ uid mlx inv hmlx hfind hinv hfresh]
        exact ⟨_, rfl⟩

/-- Claim C2: `RemoveMember(listID, ownerID, ownerID)` fails with the
last-owner-protection conflict and leaves the store untouched whenever
`ownerID` is the only owner-role member of the list, succeeds once a second
owner-role member exists, and — over the whole modelled API surface — no
transition ever leaves a stored list without an owner-role member.  (The
non-blank-id hypotheses reflect that API-reachable ids are UUIDs.) -/
theorem claim2_last_owner_protection :
    (∀ db lid oid, trimSpace lid ≠ "" → trimSpace oid ≠ "" →
      isListOwner db lid oid = true → (ownerRows db lid).length = 1 →
      removeMemberFromList db lid oid oid = (db, .error .lastOwner)) ∧
    (∀ db lid oid, trimSpace lid ≠ "" → trimSpace oid ≠ "" →
      isListOwner db lid oid = true → 2 ≤ (ownerRows db lid).length →
      (removeMemberFromList db lid oid oid).2 = .ok ()) ∧
    (∀ db dbNext, ListInv db → ApiStep db dbNext → EveryListHasOwner dbNext) := by
  refine ⟨?_, ?_, ?_⟩
  · intro db lid oid hlid hoid howner hcount
    have e1 : (trimSpace lid == "") = false := by simp [hlid]
    have e2 : (trimSpace oid == "") = false := by simp [hoid]
    have eguard : (oid == oid && isListOwner db lid oid &&
        decide ((ownerRows db lid).length ≤ 1)) = true := by
      simp [howner, hcount]
    unfold removeMemberFromList
    rw [e1, e2, eguard, howner]
    simp
  · intro db lid oid hlid hoid howner hcount
    have e1 : (trimSpace lid == "") = false := by simp [hlid]
    have e2 : (trimSpace oid == "") = false := by simp [hoid]
    have eguard : (oid == oid && isListOwner db lid oid &&
        decide ((ownerRows db lid).length ≤ 1)) = false := by
      simp [howner]
      omega
    obtain ⟨m3, hm3, h3l, h3u, h3r⟩ := (isListOwner_iff db lid oid).mp howner
    have hdel : ((db.listMembers.filter
        (fun m => !(m.listID == lid && m.userID == oid))).length ==
        db.listMembers.length) = false := by
      rw [beq_eq_false_iff_ne]
      apply filter_length_ne db.listMembers _ m3 hm3
      simp [h3l, h3u]
    unfold removeMemberFromList
    rw [e1, e2, eguard, howner]
    dsimp only
    rw [hdel]
    simp
  · intro db dbNext hinv hstep
    exact (listInv_step db dbNext hstep hinv).2.1

/-- Claim C9: `AddMember` only ever inserts rows with role `member`;
`CreateList` is the only operation that inserts an owner-role row (for the
creator), and the membership invariants — owner rows belong exactly to the
list's recorded creator and never disappear — are preserved by every
modelled API transition; right after a successful `CreateList` the
owner-role rows of the new list are exactly the creator's row. -/
theorem claim9_owner_rows :
    (∀ db now lid uid nm,
      (addMemberToList db now lid uid nm).1.listMembers = db.listMembers ∨
      (addMemberToList db now lid uid nm).1.listMembers =
        db.listMembers ++ [{ listID := lid, userID := nm, role := "member", joinedAt := now }]) ∧
    (∀ db dbNext, ListInv db → ApiStep db dbNext → ListInv dbNext) ∧
    (∀ db now uid name lid,
      (∀ l ∈ db.lists, l.id ≠ lid) → (∀ m ∈ db.listMembers, m.listID ≠ lid) →
      ∀ l, (createList db now uid name lid).2 = .ok l →
        (createList db now uid name lid).1.listMembers.filter
          (fun m => m.listID == lid && m.role == "owner") =
        [{ listID := lid, userID := uid, role := "owner", joinedAt := now }]) := by
  refine ⟨?_, ?_, ?_⟩
  · intro db now lid uid nm
    rcases addMember_result db now lid uid nm with heq | ⟨_, heq⟩
    · exact Or.inl (congrArg DB.listMembers heq)
    · exact Or.inr (congrArg DB.listMembers heq)
  · intro db dbNext hinv hstep
    exact listInv_step db dbNext hstep hinv
  · intro db now uid name lid hf1 hf2 l hok
    rcases createList_result db now uid name lid hf1 hf2 with ⟨_, e, herr⟩ | heq
    · rw [herr] at hok
      exact absurd hok (by simp)
    · have heq1 := congrArg Prod.fst heq
      rw [heq1]
      dsimp only
      rw [List.filter_append]
      have hleft : db.listMembers.filter
          (fun m => m.listID == lid && m.role == "owner") = [] := by
        rw [List.filter_eq_nil_iff]
        intro a ha
        simp [hf2 a ha]
      rw [hleft]
      simp

theorem hexDigitChar_upperHex : ∀ d, d < 16 → isUpperHexDigit (hexDigitChar d) = true := by
  decide

theorem generateInvitationCode_spec (b0 b1 b2 b3 : Fin 256) :
    (generateInvitationCode b0 b1 b2 b3).length = 8 ∧
    ∀ c ∈ (generateInvitationCode b0 b1 b2 b3).data, isUpperHexDigit c = true := by
  constructor
  · rfl
  · intro c hc
    have hb0 := b0.isLt
    have hb1 := b1.isLt
    have hb2 := b2.isLt
    have hb3 := b3.isLt
    simp only [generateInvitationCode, byteHex, List.cons_append, List.nil_append,
      List.mem_cons, List.not_mem_nil, or_false] at hc
    rcases hc with h | h | h | h | h | h | h | h <;> subst h <;>
      exact hexDigitChar_upperHex _ (by omega)

/-- Claim C6 (amended): for kind `server`, `CreateInvitation` fails with the
user-already-exists conflict when a user with the email exists, fails with
the already-invited conflict when an unused server-kind invitation for the
email exists, and otherwise — with the generated id and code fresh —
succeeds with an 8-character code over the uppercase-hex alphabet 0-9A-F. -/
theorem claim6_amended (db : DB) (now : Nat) (inviter email newID : String)
    (b0 b1 b2 b3 : Fin 256) :
    ((db.users.find? fun u => u.email == email).isSome = true →
      (createInvitation db now inviter email "server" none newID b0 b1 b2 b3).2 =
        .error .userAlreadyExists) ∧
    ((db.users.find? fun u => u.email == email) = none →
     (db.invitations.find? fun i =>
        i.email == email && i.used == false && i.invType == "server").isSome = true →
      (createInvitation db now inviter email "server" none newID b0 b1 b2 b3).2 =
        .error .alreadyInvited) ∧
    ((db.users.find? fun u => u.email == email) = none →
     (db.invitations.find? fun i =>
        i.email == email && i.used == false && i.invType == "server") = none →
     (∀ i ∈ db.invitations, i.id ≠ newID ∧ i.code ≠ generateInvitationCode b0 b1 b2 b3) →
     ∃ inv, (createInvitation db now inviter email "server" none newID b0 b1 b2 b3).2 =
         .ok inv ∧
       inv.code.length = 8 ∧ ∀ c ∈ inv.code.data, isUpperHexDigit c = true) := by
  have hc1 : (!(("server" : String) == "server") && !(("server" : String) == "list")) =
      false := by decide
  have hlc : invListCheck db inviter "server" none = none := by
    unfold invListCheck
    rw [show (("server" : String) == "list") = false from by decide]
    simp
  refine ⟨?_, ?_, ?_⟩
  · intro hfind
    obtain ⟨user, huser⟩ := Option.isSome_iff_exists.mp hfind
    have huc : invUserCheck db email "server" none = some .userAlreadyExists := by
      unfold invUserCheck
      rw [huser, show (("server" : String) == "list") = false from by decide]
      simp
    unfold createInvitation
    rw [hc1, hlc, huc]
    simp
  · intro hnone hinvsome
    have huc : invUserCheck db email "server" none = none := by
      unfold invUserCheck
      rw [hnone]
    unfold createInvitation
    rw [hc1, hlc, huc, hinvsome]
    simp
  · intro hnone hinvnone hfresh
    have huc : invUserCheck db email "server" none = none := by
      unfold invUserCheck
      rw [hnone]
    have hinvsome : (db.invitations.find? fun i =>
        i.email == email && i.used == false && i.invType == "server").isSome = false := by
      rw [hinvnone]
      rfl
    have hany : ((db.invitations.filter fun i => !(i.email == email && i.used == false)).any
        fun i => i.id == newID || i.code == generateInvitationCode b0 b1 b2 b3) =
        false := by
      rw [List.any_eq_false]
      intro x hx
      have hxmem := (List.mem_filter.1 hx).1
      obtain ⟨hid, hcode⟩ := hfresh x hxmem
      simp [hid, hcode]
    unfold createInvitation
    rw [hc1, hlc, huc, hinvsome]
    dsimp only
    rw [hany]
    simp only [Bool.false_eq_true, if_false]
    exact ⟨_, rfl, generateInvitationCode_spec b0 b1 b2 b3⟩

/-- Claim C6 (counterexample): in `c6DB` no user with the target email
exists, yet `CreateInvitation` with kind `server` does not succeed — it
fails with the already-invited conflict because an unused server invitation
for that email is present. -/
theorem claim6_counterexample :
    (c6DB.users.find? fun u => u.email == "e@x.com") = none ∧
    (createInvitation c6DB 5 "u1" "e@x.com" "server" none "newid" 0 0 0 0).2 =
      .error .alreadyInvited := by
  decide

theorem acceptInvitation_ok (db : DB) (now : Nat) (email code : String)
    (out : Invitation)
    (h : (acceptInvitation db now email code).2 = .ok out) :
    ∃ inv, db.invitations.find? (fun inv =>
        inv.email == email && inv.code == toUpperStr code && inv.used == false &&
          decide (now < inv.expiresAt)) = some inv ∧
      out = { inv with used := true } ∧
      (acceptInvitation db now email code).1.invitations =
        db.invitations.map
          (fun j => if j.id == inv.id then { j with used := true } else j) := by
  revert h
  unfold acceptInvitation
  split
  · intro h; exact absurd h (by simp)
  · rename_i inv hfind
    intro h
    simp only [Except.ok.injEq] at h
    exact ⟨inv, hfind, h.symm, rfl⟩

/-- Claim C7: `AcceptInvitation(email, code)` succeeds exactly when an
unused, unexpired invitation row for that email exists whose stored code is
the uppercased input; on success it returns the row marked used and marks
it used in the store, so — codes being unique, as the schema enforces — a
second call with the same email and code fails. -/
theorem claim7_accept_invitation (db : DB) (now now2 : Nat) (email code : String) :
    ((∃ out, (acceptInvitation db now email code).2 = .ok out) ↔
      ∃ inv ∈ db.invitations, inv.email = email ∧ inv.code = toUpperStr code ∧
        inv.used = false ∧ now < inv.expiresAt) ∧
    (∀ out, (acceptInvitation db now email code).2 = .ok out → out.used = true) ∧
    ((∀ i ∈ db.invitations, ∀ j ∈ db.invitations, i.code = j.code → i = j) →
     ∀ out, (acceptInvitation db now email code).2 = .ok out →
     (acceptInvitation (acceptInvitation db now email code).1 now2 email code).2 =
       .error .invalidOrExpiredInvitation) := by
  refine ⟨?_, ?_, ?_⟩
  · constructor
    · rintro ⟨out, hout⟩
      obtain ⟨inv, hfind, _, _⟩ := acceptInvitation_ok db now email code out hout
      have hmem := List.mem_of_find?_eq_some hfind
      have hp := List.find?_some hfind
      simp only [Bool.and_eq_true, beq_iff_eq, decide_eq_true_eq] at hp
      exact ⟨inv, hmem, by tauto, by tauto, by tauto, by tauto⟩
    · rintro ⟨inv, hmem, he, hcode, hused, hexp⟩
      have hsome : (db.invitations.find? (fun inv =>
          inv.email == email && inv.code == toUpperStr code && inv.used == false &&
            decide (now < inv.expiresAt))).isSome = true := by
        rw [List.find?_isSome]
        exact ⟨inv, hmem, by simp [he, hcode, hused, hexp]⟩
      obtain ⟨invf, hinvf⟩ := Option.isSome_iff_exists.mp hsome
      refine ⟨{ invf with used := true }, ?_⟩
      unfold acceptInvitation
      rw [hinvf]
  · intro out hout
    obtain ⟨inv, _, hout2, _⟩ := acceptInvitation_ok db now email code out hout
    rw [hout2]
  · intro hkey out hout
    obtain ⟨inv, hfind, _, hmap⟩ := acceptInvitation_ok db now email code out hout
    have hmem := List.mem_of_find?_eq_some hfind
    have hp := List.find?_some hfind
    simp only [Bool.and_eq_true, beq_iff_eq, decide_eq_true_eq] at hp
    have hcode : inv.code = toUpperStr code := by tauto
    have hnone : (acceptInvitation db now email code).1.invitations.find? (fun i =>
        i.email == email && i.code == toUpperStr code && i.used == false &&
          decide (now2 < i.expiresAt)) = none := by
      rw [hmap, List.find?_eq_none]
      intro x hx
      rw [List.mem_map] at hx
      obtain ⟨j, hj, hfx⟩ := hx
      by_cases hjid : (j.id == inv.id) = true
      · rw [if_pos hjid] at hfx
        subst hfx
        simp
      · rw [if_neg hjid] at hfx
        subst hfx
        intro hbad
        simp only [Bool.and_eq_true, beq_iff_eq, decide_eq_true_eq] at hbad
        obtain ⟨⟨⟨hje, hjc⟩, hju⟩, hjx⟩ := hbad
        have : j = inv := hkey j hj inv hmem (hjc.trans hcode.symm)
        rw [this] at hjid
        simp at hjid
    set dbA := (acceptInvitation db now email code).1 with hdbA
    unfold acceptInvitation
    rw [hnone]

/-- Claim C10: the duplicate-invitation check of `CreateInvitation` filters
only on `used = false` and the kind — never on expiry — so a state holding
an unused invitation of kind `K` for the email, even one already expired,
can never be re-invited with that kind: the call never succeeds, and when
the earlier validation checks pass it fails precisely with the
already-invited conflict. -/
theorem claim10_already_invited_ignores_expiry (db : DB) (now : Nat)
    (inviter email K : String) (listID : Option String) (newID : String)
    (b0 b1 b2 b3 : Fin 256)
    (hinv : ∃ i ∈ db.invitations,
      i.email = email ∧ i.used = false ∧ i.invType = K ∧ i.expiresAt < now) :
    (∀ out, (createInvitation db now inviter email K listID newID b0 b1 b2 b3).2 ≠
      .ok out) ∧
    ((K = "server" ∨ K = "list") →
     invListCheck db inviter K listID = none →
     invUserCheck db email K listID = none →
     (createInvitation db now inviter email K listID newID b0 b1 b2 b3).2 =
       .error .alreadyInvited) := by
  obtain ⟨i, hmem, hie, hiu, hik, _⟩ := hinv
  have hsome : (db.invitations.find? fun j =>
      j.email == email && j.used == false && j.invType == K).isSome = true := by
    rw [List.find?_isSome]
    exact ⟨i, hmem, by simp [hie, hiu, hik]⟩
  constructor
  · intro out
    unfold createInvitation
    split
    · simp
    · split
      · simp
      · split
        · simp
        · simp [hsome]
  · rintro hK hlc huc
    have hc1 : (!(K == "server") && !(K == "list")) = false := by
      rcases hK with hK | hK <;> simp [hK]
    unfold createInvitation
    rw [hc1, hlc, huc, hsome]
    simp

/-- Claim C5 (counterexample): the 3-byte-to-6-digit mapping of
`GenerateCode` is not uniform — the code 000000 has a different number of
24-bit preimages than the code 100000 (1 versus at least 111). -/
theorem claim5_counterexample :
    codePreimageCount "000000" ≠ codePreimageCount "100000" := by
  rw [codePreimageCount_000000]
  intro h
  have := codePreimageCount_100000
  omega

theorem hexDigitChar_isDigit : ∀ d, d < 10 → (hexDigitChar d).isDigit = true := by
  decide

/-- Claim C5 (amended): `GenerateCode` always yields a 6-character decimal
string, but not uniformly over 000000-999999: the preimage counts differ
between codes (000000 has exactly one 24-bit preimage, 100000 has at least
two). -/
theorem claim5_amended :
    (∀ b0 b1 b2 : Fin 256, (generateCode b0 b1 b2).length = 6 ∧
      ∀ c ∈ (generateCode b0 b1 b2).data, c.isDigit = true) ∧
    codePreimageCount "000000" = 1 ∧ 2 ≤ codePreimageCount "100000" := by
  refine ⟨?_, codePreimageCount_000000, codePreimageCount_100000⟩
  intro b0 b1 b2
  rw [generateCode_eq]
  have hv : b0.val * 65536 + b1.val * 256 + b2.val < 100000000 := by
    have := b0.isLt
    have := b1.isLt
    have := b2.isLt
    omega
  have hg : gIdx (b0.val * 65536 + b1.val * 256 + b2.val) < 1000000 := gIdx_lt _ hv
  have hlen : (decDigits (gIdx (b0.val * 65536 + b1.val * 256 + b2.val))).length ≤ 6 :=
    decDigits_len_le 5 _ (by omega)
  constructor
  · have hl : (fmt06 (gIdx (b0.val * 65536 + b1.val * 256 + b2.val))).length =
        (pad6 (decDigits (gIdx (b0.val * 65536 + b1.val * 256 + b2.val)))).length := by
      simp [fmt06, String.length]
    rw [hl]
    exact pad6_len _ hlen
  · intro c hc
    have hc2 : c ∈ (pad6 (decDigits (gIdx (b0.val * 65536 + b1.val * 256 +
        b2.val)))).map hexDigitChar := hc
    rw [List.mem_map] at hc2
    obtain ⟨d, hd, hdc⟩ := hc2
    rw [← hdc]
    exact hexDigitChar_isDigit d (pad6_digit_lt _ d hd)

theorem claim1_witness :
    (verifyMagicLinkWithInvitation wDB 10 "new@x.com" "123456" "u2").2 =
      .ok (mkNewUser "u2" "new@x.com" "u1" 10, some wInv) ∧
    (verifyMagicLinkWithInvitation wDB0 10 "new@x.com" "123456" "u2").2 =
      .error .invitationRequired := by
  constructor
  · exact (((claim1_invitation_gate wDB 10 "new@x.com" "123456" "u2").1
      ⟨wML, by decide⟩ (by decide)).2 wInv (by decide) (by decide)).1
  · exact (((claim1_invitation_gate wDB0 10 "new@x.com" "123456" "u2").1
      ⟨wML, by decide⟩ (by decide)).1 (by decide)).1

theorem claim3_witness :
    (verifyMagicLinkWithInvitation
      (verifyMagicLinkWithInvitation wDB 10 "new@x.com" "123456" "u2").1
      20 "new@x.com" "123456" "u3").2 = .error .invalidOrExpiredCode := by
  have := claim3_verify_at_most_once wDB 10 "new@x.com" "123456" "u2"
    (mkNewUser "u2" "new@x.com" "u1" 10, some wInv) (by decide) 20 "u3"
  rw [this]

theorem claim8_witness :
    verifyMagicLinkWithInvitation wDB0 10 "new@x.com" "123456" "u2" =
      (markMagicLinkUsed wDB0 "123456", .error .invitationRequired) ∧
    (verifyMagicLinkWithInvitation (markMagicLinkUsed wDB0 "123456") 20 "new@x.com"
      "123456" "u2").2 = .error .invalidOrExpiredCode := by
  have h := claim8_code_burned_on_invitation_required wDB0 10 "new@x.com" "123456" "u2"
    wML (by decide) (by decide) (by decide)
  refine ⟨h.1, ?_⟩
  rw [h.2.2.2 20 "u2"]

theorem claim4_witness :
    ((createMagicLink (createMagicLink wDB 100 "new@x.com" "111111").1 200 "new@x.com"
      "222222").1.magicLinks.filter (fun ml => ml.email == "new@x.com") =
      [{ code := "222222", email := "new@x.com", expiresAt := 200 + 15 * 60, used := false }]) ∧
    (verifyMagicLinkWithInvitation
      (createMagicLink (createMagicLink wDB 100 "new@x.com" "111111").1 200 "new@x.com"
        "222222").1 300 "new@x.com" "111111" "u9").2 = .error .invalidOrExpiredCode ∧
    ∃ res, (verifyMagicLinkWithInvitation
      (createMagicLink (createMagicLink wDB 100 "new@x.com" "111111").1 200 "new@x.com"
        "222222").1 300 "new@x.com" "222222" "u9").2 = .ok res := by
  have h := claim4_request_code_twice wDB 100 200 300 "new@x.com" "111111" "222222" "u9"
    (by decide) (by decide)
  refine ⟨h.1, ?_, ?_⟩
  · rw [h.2.1 "u9"]
  · exact h.2.2 (by decide) (Or.inr ⟨by decide, by decide⟩)

theorem claim2_witness :
    removeMemberFromList w2DB "l1" "u1" "u1" = (w2DB, .error .lastOwner) ∧
    EveryListHasOwner (removeMemberFromList w2DB "l1" "u1" "u2").1 := by
  constructor
  · exact claim2_last_owner_protection.1 w2DB "l1" "u1" (by decide) (by decide)
      (by decide) (by decide)
  · exact claim2_last_owner_protection.2.2 w2DB _
      ⟨by unfold MembersKeyUnique; decide, by unfold EveryListHasOwner; decide,
        by unfold OwnerRowsAreCreator; decide⟩
      (ApiStep.removeMember w2DB "l1" "u1" "u2")

theorem claim9_witness :
    ((addMemberToList w2DB 7 "l1" "u1" "u3").1.listMembers = w2DB.listMembers ∨
     (addMemberToList w2DB 7 "l1" "u1" "u3").1.listMembers = w2DB.listMembers ++
       [{ listID := "l1", userID := "u3", role := "member", joinedAt := 7 }]) ∧
    (createList w2DB 7 "u1" "Trip" "l2").1.listMembers.filter
      (fun m => m.listID == "l2" && m.role == "owner") =
      [{ listID := "l2", userID := "u1", role := "owner", joinedAt := 7 }] := by
  constructor
  · exact claim9_owner_rows.1 w2DB 7 "l1" "u1" "u3"
  · exact claim9_owner_rows.2.2 w2DB 7 "u1" "Trip" "l2" (by decide) (by decide)
      { id := "l2", name := "Trip", ownerID := "u1", createdAt := 7, updatedAt := 7 }
      (by decide)

theorem claim5_witness :
    (generateCode 1 134 160).length = 6 ∧ Char.isDigit '1' = true := by
  constructor
  · exact (claim5_amended.1 1 134 160).1
  · exact (claim5_amended.1 1 134 160).2 '1' (by rw [generateCode_1_134_160]; decide)

theorem claim6_witness :
    (createInvitation wDB0 3 "u1" "owner@x.com" "server" none "i9" 1 2 3 4).2 =
      .error .userAlreadyExists ∧
    ∃ inv, (createInvitation wDB0 3 "u1" "fresh@x.com" "server" none "i9" 1 2 3 4).2 =
        .ok inv ∧ inv.code.length = 8 ∧ ∀ c ∈ inv.code.data, isUpperHexDigit c = true := by
  constructor
  · exact (claim6_amended wDB0 3 "u1" "owner@x.com" "i9" 1 2 3 4).1 (by decide)
  · exact (claim6_amended wDB0 3 "u1" "fresh@x.com" "i9" 1 2 3 4).2.2 (by decide)
      (by decide) (by decide)

theorem claim7_witness :
    (∃ out, (acceptInvitation wDB 10 "new@x.com" "cafe0123").2 = .ok out) ∧
    (acceptInvitation (acceptInvitation wDB 10 "new@x.com" "cafe0123").1 20 "new@x.com"
      "cafe0123").2 = .error .invalidOrExpiredInvitation := by
  constructor
  · exact (claim7_accept_invitation wDB 10 20 "new@x.com" "cafe0123").1.mpr
      ⟨wInv, by decide, by decide, by decide, by decide, by decide⟩
  · exact (claim7_accept_invitation wDB 10 20 "new@x.com" "cafe0123").2.2 (by decide)
      { wInv with used := true } (by decide)

theorem claim10_witness :
    (createInvitation w10DB 1000 "u1" "old@x.com" "server" none "i9" 1 2 3 4).2 =
      .error .alreadyInvited := by
  exact (claim10_already_invited_ignores_expiry w10DB 1000 "u1" "old@x.com" "server"
    none "i9" 1 2 3 4 ⟨w10Inv, by decide, by decide, by decide, by decide, by decide⟩).2
    (Or.inl rfl) (by decide) (by decide)

end SLS
